import Mathlib

/-!
Verification development for the VRM-to-FBX batch conversion pipeline
(`src/vrm_pipeline/vrm_to_fbx_batch.py`).  The Python source is shallowly
embedded: pure helpers become Lean functions on `String`/`List`, the
operating-system and Blender surfaces (file existence, path normalisation,
the image data-base, operator invocations) are passed in explicitly as
record-of-functions environments, and stateful code threads its state.
-/

namespace VRMPipeline

/-! ### Path helpers (`os.path` fragments used by the script) -/

/-- Last index of a character in a character list, if any. -/
def lastIndexOfChar (cs : List Char) (c : Char) : Option Nat :=
  match cs.reverse.indexOf? c with
  | none => none
  | some i => some (cs.length - 1 - i)

/-- Embedding of `os.path.basename` for slash-separated paths: everything
after the final separator. -/
def basename (p : String) : String :=
  match (p.split (fun c => c = '/')).getLast? with
  | some s => s
  | none => ""

/-- Embedding of `os.path.splitext`: split the extension at the last dot,
unless every character between the final separator and that dot is itself a
dot (CPython `genericpath._splitext`). -/
def splitext (p : String) : String × String :=
  let cs := p.data
  let sepB : Int := match lastIndexOfChar cs '/' with
    | none => -1
    | some s => (s : Int)
  let dotB : Int := match lastIndexOfChar cs '.' with
    | none => -1
    | some d => (d : Int)
  if sepB < dotB then
    let d := dotB.toNat
    let s0 := (sepB + 1).toNat
    if (List.range d).any (fun i => decide (s0 ≤ i) && decide (cs.getD i '.' ≠ '.')) then
      (String.mk (cs.take d), String.mk (cs.drop d))
    else (p, "")
  else (p, "")

/-- Computable `startswith` over the character lists. -/
def strStarts (s pre : String) : Bool :=
  pre.data.isPrefixOf s.data

/-- Computable `endswith` over the character lists. -/
def strEnds (s post : String) : Bool :=
  post.data.reverse.isPrefixOf s.data.reverse

/-- Embedding of `os.path.join` for one extra component (POSIX flavour). -/
def pathJoin (a b : String) : String :=
  if a = "" then b
  else if strStarts b "/" then b
  else if strEnds a "/" then a ++ b
  else a ++ "/" ++ b

/-- ASCII rendering of Python `str.lower()`. -/
def pyLower (s : String) : String :=
  String.mk (s.data.map Char.toLower)

/-- Sublist-anywhere test used to embed Python `needle in haystack`. -/
def listSub (needle : List Char) : List Char → Bool
  | [] => decide (needle = [])
  | c :: rest => needle.isPrefixOf (c :: rest) || listSub needle rest

/-- Python `needle in haystack` substring test. -/
def strContains (haystack needle : String) : Bool :=
  listSub needle.data haystack.data


/-! ### `safe_name` (C8) -/

/-- Embedding of `safe_name`.  Python `str.isalnum` is Unicode aware, so the
character classifier is abstracted as a parameter; `path_or_name or ""` is
modelled by taking the argument as a plain string. -/
def safeName (isalnum : Char → Bool) (pathOrName : String) : String :=
  let base := (splitext (basename pathOrName)).fst
  let base := if base = "" then "export" else base
  let base := String.mk (base.data.map (fun c => if c = ' ' then '_' else c))
  let kept := String.mk (base.data.filter (fun c => isalnum c || c = '_' || c = '-'))
  if kept = "" then "export" else kept

/-- C8: for every input path or name, the sanitized canonical asset name
contains only alphanumeric characters (as judged by the classifier used by
the code, which accepts at least the ASCII letters), underscore, and
hyphen, and is never empty: if sanitization leaves nothing, the default
name is returned. -/
theorem C8_safe_name_sanitized (isalnum : Char → Bool)
    (hAlpha : ∀ c : Char, c.isAlpha = true → isalnum c = true)
    (p : String) :
    safeName isalnum p ≠ "" ∧
      ∀ c ∈ (safeName isalnum p).data, isalnum c = true ∨ c = '_' ∨ c = '-' := by
  have hdata : ("export" : String).data = ['e', 'x', 'p', 'o', 'r', 't'] := rfl
  have key : ∀ l : List Char,
      (if String.mk (l.filter (fun c => isalnum c || c = '_' || c = '-')) = "" then "export"
        else String.mk (l.filter (fun c => isalnum c || c = '_' || c = '-'))) ≠ "" ∧
      ∀ c ∈ (if String.mk (l.filter (fun c => isalnum c || c = '_' || c = '-')) = ""
          then "export"
          else String.mk (l.filter (fun c => isalnum c || c = '_' || c = '-'))).data,
        isalnum c = true ∨ c = '_' ∨ c = '-' := by
    intro l
    split
    · refine ⟨by decide, ?_⟩
      intro c hc
      rw [hdata] at hc
      simp only [List.mem_cons, List.not_mem_nil, or_false] at hc
      rcases hc with h | h | h | h | h | h <;> subst h <;>
        exact Or.inl (hAlpha _ (by decide))
    · rename_i hk
      refine ⟨hk, ?_⟩
      intro c hc
      have hc' : c ∈ l.filter (fun c => isalnum c || c = '_' || c = '-') := hc
      have := List.of_mem_filter hc'
      simp only [Bool.or_eq_true, decide_eq_true_eq] at this
      tauto
  simp only [safeName]
  exact key _

/-- Witness for C8 at a concrete input containing a space, a dot and a
punctuation character. -/
theorem C8_safe_name_sanitized_witness :
    safeName Char.isAlphanum "avatar v2!.vrm" ≠ "" ∧
      ∀ c ∈ (safeName Char.isAlphanum "avatar v2!.vrm").data,
        Char.isAlphanum c = true ∨ c = '_' ∨ c = '-' :=
  C8_safe_name_sanitized Char.isAlphanum
    (fun c h => by simp [Char.isAlphanum, h]) "avatar v2!.vrm"

/-! ### `find_main_armature` (C9) -/

/-- One Blender scene object, restricted to the attributes the selection
helpers read. -/
structure SceneObj where
  oname : String
  otype : String
  bones : Nat
deriving DecidableEq

/-- Loop body of `find_main_armature`: `best`/`best_bones` accumulator with
the initial bone count `-1`. -/
def findMainArmatureAux : List SceneObj → Option SceneObj → Int → Option SceneObj
  | [], best, _ => best
  | o :: rest, best, bestBones =>
    if o.otype = "ARMATURE" then
      if bestBones < (o.bones : Int) then
        findMainArmatureAux rest (some o) (o.bones : Int)
      else findMainArmatureAux rest best bestBones
    else findMainArmatureAux rest best bestBones

/-- Embedding of `find_main_armature` over the scene object list. -/
def findMainArmature (objs : List SceneObj) : Option SceneObj :=
  findMainArmatureAux objs none (-1)

/-- Accumulator characterisation of `findMainArmatureAux` once a best
armature is held. -/
theorem findMainArmatureAux_char (rest : List SceneObj) :
    ∀ b : SceneObj, b.otype = "ARMATURE" →
    ∃ best, findMainArmatureAux rest (some b) (b.bones : Int) = some best ∧
      best.otype = "ARMATURE" ∧ b.bones ≤ best.bones ∧
      (∀ o ∈ rest, o.otype = "ARMATURE" → o.bones ≤ best.bones) ∧
      (best = b ∨ ∃ l1 l2, rest = l1 ++ best :: l2 ∧ b.bones < best.bones ∧
        ∀ o ∈ l1, o.otype = "ARMATURE" → o.bones < best.bones) := by
  induction rest with
  | nil =>
    intro b hb
    exact ⟨b, rfl, hb, le_refl _, by simp, Or.inl rfl⟩
  | cons o rest ih =>
    intro b hb
    by_cases ho : o.otype = "ARMATURE"
    · by_cases hlt : (b.bones : Int) < (o.bones : Int)
      · obtain ⟨best, heq, hbt, hble, hmax, hpos⟩ := ih o ho
        have hbo : b.bones < o.bones := by exact_mod_cast hlt
        refine ⟨best, ?_, hbt, le_of_lt (lt_of_lt_of_le hbo hble), ?_, ?_⟩
        · simp [findMainArmatureAux, ho, hlt, heq]
        · intro x hx hxt
          rcases List.mem_cons.mp hx with hx | hx
          · subst hx; exact hble
          · exact hmax x hx hxt
        · rcases hpos with h | ⟨l1, l2, hsplit, hlt2, hl1⟩
          · subst h
            exact Or.inr ⟨[], rest, rfl, hbo, by simp⟩
          · refine Or.inr ⟨o :: l1, l2, by simp [hsplit], lt_trans hbo hlt2, ?_⟩
            intro x hx hxt
            rcases List.mem_cons.mp hx with hx | hx
            · subst hx; exact hlt2
            · exact hl1 x hx hxt
      · obtain ⟨best, heq, hbt, hble, hmax, hpos⟩ := ih b hb
        have hob : o.bones ≤ b.bones := by
          have := not_lt.mp hlt
          exact_mod_cast this
        refine ⟨best, ?_, hbt, hble, ?_, ?_⟩
        · simp [findMainArmatureAux, ho, hlt, heq]
        · intro x hx hxt
          rcases List.mem_cons.mp hx with hx | hx
          · subst hx; exact le_trans hob hble
          · exact hmax x hx hxt
        · rcases hpos with h | ⟨l1, l2, hsplit, hlt2, hl1⟩
          · exact Or.inl h
          · refine Or.inr ⟨o :: l1, l2, by simp [hsplit], hlt2, ?_⟩
            intro x hx hxt
            rcases List.mem_cons.mp hx with hx | hx
            · subst hx; exact lt_of_le_of_lt hob hlt2
            · exact hl1 x hx hxt
    · obtain ⟨best, heq, hbt, hble, hmax, hpos⟩ := ih b hb
      refine ⟨best, ?_, hbt, hble, ?_, ?_⟩
      · simp [findMainArmatureAux, ho, heq]
      · intro x hx hxt
        rcases List.mem_cons.mp hx with hx | hx
        · subst hx; exact absurd hxt ho
        · exact hmax x hx hxt
      · rcases hpos with h | ⟨l1, l2, hsplit, hlt2, hl1⟩
        · exact Or.inl h
        · refine Or.inr ⟨o :: l1, l2, by simp [hsplit], hlt2, ?_⟩
          intro x hx hxt
          rcases List.mem_cons.mp hx with hx | hx
          · subst hx; exact absurd hxt ho
          · exact hl1 x hx hxt

/-- C9: for every scene containing at least one armature object, the
selected skeleton is an armature with the greatest bone count among all
armature objects present, and ties are broken in favour of the
first-encountered armature (every armature strictly before the selected one
in scene order has strictly fewer bones). -/
theorem C9_main_armature_max_bones (objs : List SceneObj)
    (h : ∃ o ∈ objs, o.otype = "ARMATURE") :
    ∃ best, findMainArmature objs = some best ∧
      best.otype = "ARMATURE" ∧
      (∀ o ∈ objs, o.otype = "ARMATURE" → o.bones ≤ best.bones) ∧
      ∃ l1 l2, objs = l1 ++ best :: l2 ∧
        ∀ o ∈ l1, o.otype = "ARMATURE" → o.bones < best.bones := by
  induction objs with
  | nil => obtain ⟨o, ho, _⟩ := h; exact absurd ho (List.not_mem_nil o)
  | cons o rest ih =>
    by_cases ho : o.otype = "ARMATURE"
    · have hstep : findMainArmature (o :: rest) =
          findMainArmatureAux rest (some o) (o.bones : Int) := by
        have : (-1 : Int) < (o.bones : Int) := by omega
        simp [findMainArmature, findMainArmatureAux, ho, this]
      obtain ⟨best, heq, hbt, hble, hmax, hpos⟩ := findMainArmatureAux_char rest o ho
      refine ⟨best, hstep.trans heq, hbt, ?_, ?_⟩
      · intro x hx hxt
        rcases List.mem_cons.mp hx with hx | hx
        · subst hx; exact hble
        · exact hmax x hx hxt
      · rcases hpos with h' | ⟨l1, l2, hsplit, hlt2, hl1⟩
        · subst h'; exact ⟨[], rest, rfl, by simp⟩
        · refine ⟨o :: l1, l2, by simp [hsplit], ?_⟩
          intro x hx hxt
          rcases List.mem_cons.mp hx with hx | hx
          · subst hx; exact hlt2
          · exact hl1 x hx hxt
    · have hrest : ∃ x ∈ rest, x.otype = "ARMATURE" := by
        obtain ⟨x, hx, hxt⟩ := h
        rcases List.mem_cons.mp hx with hx | hx
        · subst hx; exact absurd hxt ho
        · exact ⟨x, hx, hxt⟩
      have hstep : findMainArmature (o :: rest) = findMainArmature rest := by
        simp [findMainArmature, findMainArmatureAux, ho]
      obtain ⟨best, heq, hbt, hmax, l1, l2, hsplit, hl1⟩ := ih hrest
      refine ⟨best, hstep.trans heq, hbt, ?_, o :: l1, l2, by simp [hsplit], ?_⟩
      · intro x hx hxt
        rcases List.mem_cons.mp hx with hx | hx
        · subst hx; exact absurd hxt ho
        · exact hmax x hx hxt
      · intro x hx hxt
        rcases List.mem_cons.mp hx with hx | hx
        · subst hx; exact absurd hxt ho
        · exact hl1 x hx hxt

/-- Witness for C9: with a 30-bone skeleton A and a 10-bone skeleton B
present, the selection picks A. -/
theorem C9_main_armature_max_bones_witness :
    (∃ o ∈ [SceneObj.mk "A" "ARMATURE" 30, SceneObj.mk "B" "ARMATURE" 10],
        o.otype = "ARMATURE") ∧
    (∃ best, findMainArmature
        [SceneObj.mk "A" "ARMATURE" 30, SceneObj.mk "B" "ARMATURE" 10] = some best ∧
      best.otype = "ARMATURE" ∧
      (∀ o ∈ [SceneObj.mk "A" "ARMATURE" 30, SceneObj.mk "B" "ARMATURE" 10],
        o.otype = "ARMATURE" → o.bones ≤ best.bones) ∧
      ∃ l1 l2, [SceneObj.mk "A" "ARMATURE" 30, SceneObj.mk "B" "ARMATURE" 10] =
          l1 ++ best :: l2 ∧
        ∀ o ∈ l1, o.otype = "ARMATURE" → o.bones < best.bones) ∧
    findMainArmature [SceneObj.mk "A" "ARMATURE" 30, SceneObj.mk "B" "ARMATURE" 10] =
      some (SceneObj.mk "A" "ARMATURE" 30) :=
  ⟨by decide, C9_main_armature_max_bones _ (by decide), by decide⟩

/-! ### Python string fragments used by the MTL rewriting pass -/

/-- Python whitespace for `str.split()`/`str.strip()` (ASCII subset). -/
def pyIsWs (c : Char) : Bool :=
  c = ' ' || c = '\t' || c = '\n' || c = '\r' || c = '\x0b' || c = '\x0c'

/-- Python `str.strip()` with no argument. -/
def pyStrip (s : String) : String :=
  String.mk (((s.data.dropWhile pyIsWs).reverse.dropWhile pyIsWs).reverse)

/-- Python `line.rstrip("\n\r")`. -/
def rstripNewline (s : String) : String :=
  String.mk ((s.data.reverse.dropWhile (fun c => c = '\n' || c = '\r')).reverse)

/-- Python `str.lstrip()` with no argument. -/
def lstripWs (s : String) : String :=
  String.mk (s.data.dropWhile pyIsWs)

/-- Python `s.split(None, 1)` restricted to the head token and the optional
remainder (the remainder keeps its trailing characters). -/
def pySplitOnce (s : String) : String × Option String :=
  let cs := s.data.dropWhile pyIsWs
  let tok := cs.takeWhile (fun c => !(pyIsWs c))
  let rem := (cs.dropWhile (fun c => !(pyIsWs c))).dropWhile pyIsWs
  if tok = [] then ("", none)
  else if rem = [] then (String.mk tok, none)
  else (String.mk tok, some (String.mk rem))

/-- Replace backslashes by slashes, as in `raw.replace("\\", "/")`. -/
def backslashToSlash (s : String) : String :=
  String.mk (s.data.map (fun c => if c = '\\' then '/' else c))

/-! ### Texture relocation resolver (C5, C7, C10) -/

/-- One entry of `bpy.data.images`, restricted to the attributes the MTL
rewriting pass reads.  Empty strings model absent or empty (falsy) path
attributes. -/
structure BImage where
  iname : String
  itype : String
  filepathRaw : String
  filepath : String
  hasData : Bool
deriving DecidableEq

/-- Operating-system and Blender surface consumed by the MTL pass: file
existence, path predicates and normalisers, the image data-base, and the
success of copy/save attempts.  `mtlLines` is the content of the MTL file
handed to one rewrite pass (`none` models a read failure). -/
structure FsEnv where
  isfile : String → Bool
  isabs : String → Bool
  normpath : String → String
  abspathOs : String → String
  abspathBpy : String → String
  images : List BImage
  copyOk : String → String → Bool
  saveOk : String → Bool
  mtlLines : Option (List String)

/-- Result of `_resolve_blender_image_for_mtl`: the Python function returns
`(absolute_path, None)`, `("PACKED", img)` or `(None, display_name)`; the
three cases are modelled as a sum. -/
inductive MtlResolve where
  | disk : String → MtlResolve
  | packed : BImage → MtlResolve
  | unresolved : String → MtlResolve
deriving DecidableEq

/-- Name-match test from step 3 of the resolver: the stripped image name is
non-empty and equals the searched base name directly or via `basename`. -/
def imageNameMatches (img : BImage) (base : String) : Bool :=
  pyStrip img.iname ≠ "" && (base = pyStrip img.iname || basename img.iname = base)

/-- Step 3 of `_resolve_blender_image_for_mtl`: scan `bpy.data.images` for a
matching file path or name, yielding an on-disk path or the packed sentinel. -/
def searchImages (env : FsEnv) (raw base : String) : List BImage → MtlResolve
  | [] => .unresolved raw
  | img :: rest =>
    if img.itype ≠ "IMAGE" then searchImages env raw base rest
    else
      let fp := if img.filepathRaw ≠ "" then img.filepathRaw else img.filepath
      if fp = "" then
        if imageNameMatches img base then .packed img
        else searchImages env raw base rest
      else
        let ab := env.abspathBpy fp
        if ab ≠ "" && env.isfile ab &&
            (basename ab = base || strEnds ab raw ||
              strContains (backslashToSlash ab) raw) then
          .disk ab
        else if imageNameMatches img base then
          (if ab ≠ "" && env.isfile ab then .disk ab else .packed img)
        else searchImages env raw base rest

/-- Embedding of `_resolve_blender_image_for_mtl`. -/
def resolveBlenderImageForMtl (env : FsEnv) (mtlPathValue : String)
    (objFolder : Option String) : MtlResolve :=
  let raw := backslashToSlash (pyStrip mtlPathValue)
  if raw = "" then .unresolved mtlPathValue
  else
    let base := basename raw
    if env.isabs raw then
      (if env.isfile raw then .disk (env.normpath raw) else .unresolved raw)
    else
      let rel := match objFolder with
        | some folder =>
          let relPath := env.normpath (pathJoin folder raw)
          if env.isfile relPath then some (env.abspathOs relPath) else none
        | none => none
      match rel with
      | some p => .disk p
      | none => searchImages env raw base env.images

/-- Candidate loop of `unique_filename`: first index whose candidate name is
not yet used (`for i in range(1, 9999)`). -/
def uniqueFilenameGo (stem ext : String) (used : List String) : List Nat → Option String
  | [] => none
  | i :: is =>
    let cand := stem ++ "__" ++ toString i ++ ext
    if cand ∈ used then uniqueFilenameGo stem ext used is else some cand

/-- Body of `unique_filename` after the `base or "tex.png"` defaulting. -/
def uniqueFilenameCore (used : List String) (base : String) : String × List String :=
  if base ∈ used then
    match uniqueFilenameGo (splitext base).1 (splitext base).2 used (List.range' 1 9998) with
    | some cand => (cand, cand :: used)
    | none => (base, used)
  else (base, base :: used)

/-- Embedding of `unique_filename`, with the mutable `used_filenames` set
threaded as a list.  The final `return base` of the Python loop (suffix
range exhausted) returns without recording the name. -/
def uniqueFilename (used : List String) (base0 : String) : String × List String :=
  uniqueFilenameCore used (if base0 = "" then "tex.png" else base0)

/-- File-system effects attempted by the MTL rewriting pass. -/
inductive FsEffect where
  | copyFile : String → String → FsEffect
  | saveRender : String → String → FsEffect
  | writeMtl : String → List String → FsEffect
deriving DecidableEq

/-- Recognised map directives of `_parse_mtl_copy_textures_and_rewrite`. -/
def mapPrefixKeys : List String :=
  ["map_Kd", "map_Ks", "map_Bump", "map_d", "map_Ka", "map_Ns", "map_Ke", "map_refl"]

/-- Image-extension test `name.lower().endswith((".png",".jpg",".jpeg",".bmp"))`. -/
def lowerEndsWithImageExt (s : String) : Bool :=
  [".png", ".jpg", ".jpeg", ".bmp"].any (fun e => strEnds (pyLower s) e)

/-- Destination base name synthesised for a packed image. -/
def packedBaseName (img : BImage) : String :=
  let nm := if img.iname = "" then "image" else img.iname
  let nm := String.mk (nm.data.map (fun c => if c = ' ' then '_' else c))
  let nm := if lowerEndsWithImageExt nm then nm else nm ++ ".png"
  basename nm

/-- Folded state of one MTL rewrite pass. -/
structure ParseState where
  used : List String
  newLines : List String
  copied : Nat
  missing : List String
  effects : List FsEffect
deriving DecidableEq

/-- Initial state of one MTL rewrite pass. -/
def initParseState : ParseState := ⟨[], [], 0, [], []⟩

/-- Per-line body of `_parse_mtl_copy_textures_and_rewrite`. -/
def processLine (env : FsEnv) (objFolder : String) (st : ParseState)
    (line : String) : ParseState :=
  let stripped := rstripNewline line
  let rest := lstripWs stripped
  if rest = "" then { st with newLines := st.newLines ++ [line] }
  else
    let parts := pySplitOnce rest
    let key := parts.1
    match parts.2 with
    | none => { st with newLines := st.newLines ++ [line] }
    | some remainder =>
      if key ∈ mapPrefixKeys then
        let pathValue := pyStrip remainder
        match resolveBlenderImageForMtl env pathValue (some objFolder) with
        | .unresolved _ =>
          { st with newLines := st.newLines ++ [line],
                    missing := st.missing ++ [pathValue] }
        | .packed img =>
          let ufr := uniqueFilename st.used (packedBaseName img)
          let dst := pathJoin objFolder ufr.1
          if env.saveOk dst then
            { st with used := ufr.2,
                      newLines := st.newLines ++ [key ++ " " ++ ufr.1 ++ "\n"],
                      copied := st.copied + 1,
                      effects := st.effects ++ [.saveRender img.iname dst] }
          else
            { st with used := ufr.2,
                      newLines := st.newLines ++ [key ++ " " ++ ufr.1 ++ "\n"],
                      missing := st.missing ++ [pathValue] }
        | .disk srcAb =>
          if srcAb ≠ "" && env.isfile srcAb then
            let ufr := uniqueFilename st.used (basename srcAb)
            let dst := pathJoin objFolder ufr.1
            if env.abspathOs srcAb ≠ env.abspathOs dst then
              if env.copyOk srcAb dst then
                { st with used := ufr.2,
                          newLines := st.newLines ++ [key ++ " " ++ ufr.1 ++ "\n"],
                          copied := st.copied + 1,
                          effects := st.effects ++ [.copyFile srcAb dst] }
              else
                { st with used := ufr.2,
                          newLines := st.newLines ++ [key ++ " " ++ ufr.1 ++ "\n"],
                          missing := st.missing ++ [pathValue] }
            else
              { st with used := ufr.2,
                        newLines := st.newLines ++ [key ++ " " ++ ufr.1 ++ "\n"] }
          else
            { st with newLines := st.newLines ++ [line] }
      else { st with newLines := st.newLines ++ [line] }

/-- Effects of `_save_packed_images_to_folder`. -/
def savePackedEffects (env : FsEnv) (destFolder : String) : List FsEffect :=
  env.images.filterMap (fun img =>
    if img.itype ≠ "IMAGE" || !img.hasData then none
    else
      let nm := String.mk ((if img.iname = "" then "image" else img.iname).data.map
        (fun c => if c = ' ' then '_' else c))
      if nm = "" then none
      else
        let nm2 := if lowerEndsWithImageExt nm then nm else nm ++ ".png"
        let path := pathJoin destFolder (basename nm2)
        if env.saveOk path then some (.saveRender img.iname path) else none)

/-- Embedding of `_parse_mtl_copy_textures_and_rewrite`: returns the number
of copied textures, the missing list, and the file-system effects attempted
by the pass (texture copies/saves, packed-image flush, MTL rewrite). -/
def parseMtl (env : FsEnv) (objFolder mtlPath : String) :
    Nat × List String × List FsEffect :=
  if !(env.isfile mtlPath) then (0, [], [])
  else
    match env.mtlLines with
    | none => (0, [], [])
    | some lines =>
      let st := lines.foldl (processLine env objFolder) initParseState
      (st.copied, st.missing,
        st.effects ++ savePackedEffects env objFolder ++ [.writeMtl mtlPath st.newLines])

/-- C10: if the MTL file does not exist when the texture-relocation pass is
invoked, the pass returns zero copied textures and an empty missing list and
attempts no file writes at all. -/
theorem C10_missing_mtl_no_effects (env : FsEnv) (objFolder mtlPath : String)
    (h : env.isfile mtlPath = false) :
    parseMtl env objFolder mtlPath = (0, [], []) := by
  simp [parseMtl, h]

/-- Sample environment with an empty file system, used by concrete
instantiations of the MTL theorems. -/
def emptyFsEnv : FsEnv :=
  ⟨fun _ => false, fun p => strStarts p "/", id, id, id, [],
    fun _ _ => true, fun _ => true, none⟩

/-- Witness for C10 at a concrete environment and path. -/
theorem C10_missing_mtl_no_effects_witness :
    emptyFsEnv.isfile "out/obj/model/model.mtl" = false ∧
    parseMtl emptyFsEnv "out/obj/model" "out/obj/model/model.mtl" = (0, [], []) :=
  ⟨rfl, C10_missing_mtl_no_effects emptyFsEnv "out/obj/model" "out/obj/model/model.mtl" rfl⟩

/-! ### C7: uniqueness of destination filenames -/

/-- Repeated invocation of `unique_filename` with a fixed base name within
one rewrite pass: the list of returned names (in call order) and the final
used-name set. -/
def ufIterate (base : String) : Nat → List String × List String
  | 0 => ([], [])
  | n + 1 =>
    let p := ufIterate base n
    let r := uniqueFilename p.2 base
    (p.1 ++ [r.1], r.2)

/-- All names `unique_filename` can ever return for a fixed base: the
(defaulted) base itself and the 9998 suffixed candidates. -/
def ufCandidateNames (base0 : String) : List String :=
  let base := if base0 = "" then "tex.png" else base0
  base :: (List.range' 1 9998).map
    (fun i => (splitext base).1 ++ "__" ++ toString i ++ (splitext base).2)

theorem uniqueFilenameGo_mem (stem ext : String) (used : List String) :
    ∀ is c, uniqueFilenameGo stem ext used is = some c →
      c ∈ is.map (fun i => stem ++ "__" ++ toString i ++ ext) := by
  intro is
  induction is with
  | nil => intro c h; simp [uniqueFilenameGo] at h
  | cons i is ih =>
    intro c h
    simp only [uniqueFilenameGo] at h
    split at h
    · exact List.mem_cons_of_mem _ (ih c h)
    · simp only [Option.some.injEq] at h
      exact h ▸ List.mem_cons_self _ _

theorem uniqueFilenameGo_not_mem (stem ext : String) (used : List String) :
    ∀ is c, uniqueFilenameGo stem ext used is = some c → c ∉ used := by
  intro is
  induction is with
  | nil => intro c h; simp [uniqueFilenameGo] at h
  | cons i is ih =>
    intro c h
    simp only [uniqueFilenameGo] at h
    split at h
    · exact ih c h
    · rename_i hnm
      simp only [Option.some.injEq] at h
      exact h ▸ hnm

theorem uniqueFilenameCore_fst_mem (used : List String) (base : String) :
    (uniqueFilenameCore used base).1 ∈
      base :: (List.range' 1 9998).map
        (fun i => (splitext base).1 ++ "__" ++ toString i ++ (splitext base).2) := by
  simp only [uniqueFilenameCore]
  split
  · rcases hgo : uniqueFilenameGo (splitext base).1 (splitext base).2 used
        (List.range' 1 9998) with _ | c
    · simp [hgo]
    · simp only [hgo]
      exact List.mem_cons_of_mem _ (uniqueFilenameGo_mem _ _ _ _ _ hgo)
  · exact List.mem_cons_self _ _

theorem uniqueFilename_fst_mem_candidates (used : List String) (b : String) :
    (uniqueFilename used b).1 ∈ ufCandidateNames b := by
  simp only [uniqueFilename, ufCandidateNames]
  exact uniqueFilenameCore_fst_mem used _

theorem ufIterate_length (base : String) : ∀ n, (ufIterate base n).1.length = n := by
  intro n
  induction n with
  | zero => rfl
  | succ n ih => simp [ufIterate, ih]

theorem ufIterate_subset (base : String) :
    ∀ n, ∀ r ∈ (ufIterate base n).1, r ∈ ufCandidateNames base := by
  intro n
  induction n with
  | zero => intro r hr; simp [ufIterate] at hr
  | succ n ih =>
    intro r hr
    simp only [ufIterate, List.mem_append, List.mem_singleton] at hr
    rcases hr with hr | hr
    · exact ih r hr
    · exact hr ▸ uniqueFilename_fst_mem_candidates _ _

/-- C7 counterexample: in one rewrite pass, 10000 calls of `unique_filename`
with the same base produce at most 9999 distinct names (the base and the
9998 suffixed candidates), so some returned name repeats an earlier one:
the claimed pass-wide uniqueness fails (the Python fallback `return base`
after exhausting `range(1, 9999)` hands out an already-used name). -/
theorem C7_counterexample_repeat :
    ¬ (ufIterate "t.png" 10000).1.Nodup := by
  intro hnd
  have hsub : (ufIterate "t.png" 10000).1 ⊆ ufCandidateNames "t.png" :=
    fun r hr => ufIterate_subset "t.png" 10000 r hr
  have hsp := List.subperm_of_subset hnd hsub
  have hlen := hsp.length_le
  rw [ufIterate_length] at hlen
  have hcand : (ufCandidateNames "t.png").length = 9999 := by
    simp [ufCandidateNames]
  omega

theorem uniqueFilenameCore_fst_mem_snd (used : List String) (base : String) :
    (uniqueFilenameCore used base).1 ∈ (uniqueFilenameCore used base).2 := by
  simp only [uniqueFilenameCore]
  split
  · rename_i hin
    rcases hgo : uniqueFilenameGo (splitext base).1 (splitext base).2 used
        (List.range' 1 9998) with _ | c
    · simpa [hgo] using hin
    · simp [hgo]
  · simp

theorem uniqueFilenameCore_changed_not_mem (used : List String) (base : String)
    (h : (uniqueFilenameCore used base).2 ≠ used) :
    (uniqueFilenameCore used base).1 ∉ used := by
  revert h
  simp only [uniqueFilenameCore]
  split
  · rcases hgo : uniqueFilenameGo (splitext base).1 (splitext base).2 used
        (List.range' 1 9998) with _ | c
    · simp [hgo]
    · intro _
      exact uniqueFilenameGo_not_mem _ _ _ _ _ hgo
  · rename_i hout
    intro _
    exact hout

theorem uniqueFilename_fst_mem_snd (used : List String) (b : String) :
    (uniqueFilename used b).1 ∈ (uniqueFilename used b).2 :=
  uniqueFilenameCore_fst_mem_snd used _

theorem uniqueFilename_changed_not_mem (used : List String) (b : String)
    (h : (uniqueFilename used b).2 ≠ used) :
    (uniqueFilename used b).1 ∉ used :=
  uniqueFilenameCore_changed_not_mem used _ h

/-- C7 amended: within one rewrite pass, two calls of `unique_filename` with
the same base return distinct names, provided the second call does not
exhaust the numeric-suffix range 1..9998 (the only case in which the code
returns the base unrecorded); in that non-exhausted case the second name is
also fresh with respect to every name recorded so far. -/
theorem C7_unique_filename_distinct (used : List String) (b : String)
    (h : (uniqueFilename (uniqueFilename used b).2 b).2 ≠ (uniqueFilename used b).2) :
    (uniqueFilename (uniqueFilename used b).2 b).1 ≠ (uniqueFilename used b).1 ∧
    (uniqueFilename (uniqueFilename used b).2 b).1 ∉ (uniqueFilename used b).2 := by
  have h1 := uniqueFilename_fst_mem_snd used b
  have h2 := uniqueFilename_changed_not_mem _ b h
  exact ⟨fun he => h2 (he ▸ h1), h2⟩

/-- Witness for the amended C7 at the empty pass state: the first call on
`t.png` returns `t.png`, the second returns the suffixed `t__1.png`. -/
theorem C7_unique_filename_distinct_witness :
    ((uniqueFilename (uniqueFilename [] "t.png").2 "t.png").2 ≠
        (uniqueFilename [] "t.png").2) ∧
    ((uniqueFilename (uniqueFilename [] "t.png").2 "t.png").1 ≠
        (uniqueFilename [] "t.png").1 ∧
      (uniqueFilename (uniqueFilename [] "t.png").2 "t.png").1 ∉
        (uniqueFilename [] "t.png").2) :=
  ⟨by decide, C7_unique_filename_distinct [] "t.png" (by decide)⟩

/-! ### C5: resolution order of legacy map directives -/

/-- C5: for every legacy material-file map directive, path resolution is
attempted in order: (1) a path that is absolute and exists on disk is used
as-is (normalised); (2) a relative path is resolved against the material
file folder; (3) otherwise the in-memory image set is searched by file path
or base name; and whenever resolution fails entirely, the directive line is
written back unmodified and the original path is recorded in the missing
list. -/
theorem C5_mtl_resolution_order (env : FsEnv) :
    (∀ v folder,
      backslashToSlash (pyStrip v) ≠ "" →
      env.isabs (backslashToSlash (pyStrip v)) = true →
      env.isfile (backslashToSlash (pyStrip v)) = true →
      resolveBlenderImageForMtl env v folder =
        .disk (env.normpath (backslashToSlash (pyStrip v)))) ∧
    (∀ v folder,
      backslashToSlash (pyStrip v) ≠ "" →
      env.isabs (backslashToSlash (pyStrip v)) = false →
      env.isfile (env.normpath (pathJoin folder (backslashToSlash (pyStrip v)))) = true →
      resolveBlenderImageForMtl env v (some folder) =
        .disk (env.abspathOs (env.normpath (pathJoin folder (backslashToSlash (pyStrip v)))))) ∧
    (∀ v folder,
      backslashToSlash (pyStrip v) ≠ "" →
      env.isabs (backslashToSlash (pyStrip v)) = false →
      env.isfile (env.normpath (pathJoin folder (backslashToSlash (pyStrip v)))) = false →
      resolveBlenderImageForMtl env v (some folder) =
        searchImages env (backslashToSlash (pyStrip v))
          (basename (backslashToSlash (pyStrip v))) env.images) ∧
    (∀ objFolder st line key remainder m,
      lstripWs (rstripNewline line) ≠ "" →
      pySplitOnce (lstripWs (rstripNewline line)) = (key, some remainder) →
      key ∈ mapPrefixKeys →
      resolveBlenderImageForMtl env (pyStrip remainder) (some objFolder) = .unresolved m →
      processLine env objFolder st line =
        { st with newLines := st.newLines ++ [line],
                  missing := st.missing ++ [pyStrip remainder] }) := by
  refine ⟨?_, ?_, ?_, ?_⟩
  · intro v folder hne habs hfile
    simp [resolveBlenderImageForMtl, hne, habs, hfile]
  · intro v folder hne habs hfile
    simp [resolveBlenderImageForMtl, hne, habs, hfile]
  · intro v folder hne habs hfile
    simp [resolveBlenderImageForMtl, hne, habs, hfile]
  · intro objFolder st line key remainder m hne hsplit hkey hres
    simp [processLine, hne, hsplit, hkey, hres]

/-- Environment for the C5 witness: one absolute file, one file reachable
relative to the material folder, an empty image data-base. -/
def sampleEnvC5 : FsEnv :=
  ⟨fun p => p = "/tex/a.png" || p = "/out/rel/b.png",
    fun p => strStarts p "/", id, id, id, [], fun _ _ => true, fun _ => true, none⟩

/-- Witness for C5: the three resolution steps and the unresolved-directive
behaviour at concrete inputs. -/
theorem C5_mtl_resolution_order_witness :
    resolveBlenderImageForMtl sampleEnvC5 "/tex/a.png" (some "/out") =
      .disk "/tex/a.png" ∧
    resolveBlenderImageForMtl sampleEnvC5 "rel/b.png" (some "/out") =
      .disk "/out/rel/b.png" ∧
    resolveBlenderImageForMtl sampleEnvC5 "ghost.png" (some "/out") =
      searchImages sampleEnvC5 "ghost.png" "ghost.png" [] ∧
    processLine sampleEnvC5 "/out" initParseState "map_Kd ghost.png\n" =
      { initParseState with newLines := ["map_Kd ghost.png\n"], missing := ["ghost.png"] } := by
  refine ⟨?_, ?_, ?_, ?_⟩
  · rw [(C5_mtl_resolution_order sampleEnvC5).1 "/tex/a.png" (some "/out")
      (by decide) (by decide) (by decide)]
    decide
  · rw [(C5_mtl_resolution_order sampleEnvC5).2.1 "rel/b.png" "/out"
      (by decide) (by decide) (by decide)]
    decide
  · rw [(C5_mtl_resolution_order sampleEnvC5).2.2.1 "ghost.png" "/out"
      (by decide) (by decide) (by decide)]
    decide
  · rw [(C5_mtl_resolution_order sampleEnvC5).2.2.2 "/out" initParseState
      "map_Kd ghost.png\n" "map_Kd" "ghost.png" "ghost.png"
      (by decide) (by decide) (by decide) (by decide)]
    decide

/-! ### Rig-binding strategy engine (C2) -/

/-- One selection/mode strategy: description, selected object names, active
object name, interaction mode. -/
structure Strategy where
  sdesc : String
  selected : List String
  active : String
  mode : String
deriving DecidableEq

/-- The ordered strategy list of `call_arp_op`. -/
def arpStrategies (armature mesh : String) : List Strategy :=
  [⟨"armature active, [armature]", [armature], armature, "OBJECT"⟩,
   ⟨"armature active, [armature, mesh]", [armature, mesh], armature, "OBJECT"⟩,
   ⟨"mesh active, [mesh, armature]", [mesh, armature], mesh, "OBJECT"⟩,
   ⟨"armature active, [armature], POSE", [armature], armature, "POSE"⟩]

/-- The single canonical selection context used by the steps invoked without
retry (`set_selection` followed by a direct operator call). -/
def singleCtx (selected : List String) (active mode : String) : Strategy :=
  ⟨"", selected, active, mode⟩

/-- Collaborator surface of the rig-binding engine: operator availability,
the per-context success of each operator (an exception and a non-FINISHED
result are both failures), and the armature sets observed before and after
the rig-matching step (name and bone count). -/
structure ArpEnv where
  hasOp : String → Bool
  opResult : String → Strategy → Bool
  armaturesBefore : List (String × Nat)
  armaturesAfter : List (String × Nat)

/-- Loop of `call_arp_op`: try the strategies in order, stopping at the
first success; the second component records every attempted invocation. -/
def callArpOpGo (env : ArpEnv) (opName : String) :
    List Strategy → Bool × List (String × Strategy)
  | [] => (false, [])
  | s :: ss =>
    if env.opResult opName s then (true, [(opName, s)])
    else
      let r := callArpOpGo env opName ss
      (r.1, (opName, s) :: r.2)

/-- Embedding of `call_arp_op`. -/
def callArpOp (env : ArpEnv) (opName armature mesh : String) :
    Bool × List (String × Strategy) :=
  callArpOpGo env opName (arpStrategies armature mesh)

/-- Selection of the produced rig after `match_to_rig`: the newly appeared
armature with the greatest bone count (`n > best_bones` keeps the first on
ties). -/
def pickNewRig (after : List (String × Nat)) (beforeNames : List String) :
    Option String :=
  ((after.filter (fun p => !(beforeNames.contains p.1))).foldl
    (fun best p =>
      match best with
      | none => some p
      | some q => if q.2 < p.2 then some p else best) none).map Prod.fst

/-- Outcome of one `run_arp_sequence` invocation: success flag, produced rig
and the full list of operator invocations (operator name and context). -/
structure ArpOutcome where
  ok : Bool
  rig : Option String
  trace : List (String × Strategy)
deriving DecidableEq

/-- Embedding of `run_arp_sequence`: `auto_scale` goes through the
four-strategy retry of `call_arp_op`; `guess_markers`, `match_to_rig` and
`bind_to_rig` are each invoked once with a single canonical selection. -/
def runArpSequence (env : ArpEnv) (armature mesh : String) : ArpOutcome :=
  if !(env.hasOp "auto_scale" && env.hasOp "guess_markers" &&
       env.hasOp "match_to_rig" && env.hasOp "bind_to_rig") then ⟨false, none, []⟩
  else
    let r1 := callArpOp env "auto_scale" armature mesh
    if !r1.1 then ⟨false, none, r1.2⟩
    else
      let c2 := singleCtx [armature] armature "OBJECT"
      let t2 := r1.2 ++ [("guess_markers", c2)]
      if !(env.opResult "guess_markers" c2) then ⟨false, none, t2⟩
      else
        let c3 := singleCtx [armature] armature "OBJECT"
        let t3 := t2 ++ [("match_to_rig", c3)]
        if !(env.opResult "match_to_rig" c3) then ⟨false, none, t3⟩
        else
          let arpRig :=
            (pickNewRig env.armaturesAfter (env.armaturesBefore.map Prod.fst)).getD armature
          let c4 := singleCtx [arpRig, mesh] arpRig "OBJECT"
          let t4 := t3 ++ [("bind_to_rig", c4)]
          if !(env.opResult "bind_to_rig" c4) then ⟨false, none, t4⟩
          else ⟨true, some arpRig, t4⟩

/-- Modelled from the spec: the variant of the binding sequence in which the
skin-binding step also retries across the four-strategy list, as the claim
asserts of the code.  Used only to compare the claimed behaviour with the
embedded source behaviour. -/
def runArpSequenceSpecRetry (env : ArpEnv) (armature mesh : String) : ArpOutcome :=
  if !(env.hasOp "auto_scale" && env.hasOp "guess_markers" &&
       env.hasOp "match_to_rig" && env.hasOp "bind_to_rig") then ⟨false, none, []⟩
  else
    let r1 := callArpOp env "auto_scale" armature mesh
    if !r1.1 then ⟨false, none, r1.2⟩
    else
      let c2 := singleCtx [armature] armature "OBJECT"
      let t2 := r1.2 ++ [("guess_markers", c2)]
      if !(env.opResult "guess_markers" c2) then ⟨false, none, t2⟩
      else
        let c3 := singleCtx [armature] armature "OBJECT"
        let t3 := t2 ++ [("match_to_rig", c3)]
        if !(env.opResult "match_to_rig" c3) then ⟨false, none, t3⟩
        else
          let arpRig :=
            (pickNewRig env.armaturesAfter (env.armaturesBefore.map Prod.fst)).getD armature
          let r4 := callArpOp env "bind_to_rig" arpRig mesh
          let t4 := t3 ++ r4.2
          if !r4.1 then ⟨false, none, t4⟩
          else ⟨true, some arpRig, t4⟩

/-- Environment in which the canonical skin-binding selection fails but the
armature-alone strategy would succeed. -/
def sampleEnvC2 : ArpEnv :=
  ⟨fun _ => true,
   fun op s => if op = "bind_to_rig" then decide (s.selected = ["Arm"]) else true,
   [("Arm", 10)], [("Arm", 10)]⟩

/-- C2 counterexample: the claim states that the skin-binding step retries
across the four-strategy list; in the code it is attempted exactly once with
the canonical rig-plus-mesh selection.  In an environment where that single
canonical attempt fails but the armature-alone strategy would succeed, the
embedded code fails with exactly one `bind_to_rig` invocation, while the
behaviour claimed by the spec would succeed. -/
theorem C2_counterexample_bind_no_retry :
    (runArpSequence sampleEnvC2 "Arm" "Mesh").ok = false ∧
    ((runArpSequence sampleEnvC2 "Arm" "Mesh").trace.filter
        (fun e => e.1 = "bind_to_rig")).length = 1 ∧
    (runArpSequenceSpecRetry sampleEnvC2 "Arm" "Mesh").ok = true := by
  decide

theorem callArpOpGo_entry_name (env : ArpEnv) (opName : String) :
    ∀ ss, ∀ e ∈ (callArpOpGo env opName ss).2, e.1 = opName := by
  intro ss
  induction ss with
  | nil => intro e he; simp [callArpOpGo] at he
  | cons s ss ih =>
    intro e he
    simp only [callArpOpGo] at he
    split at he
    · simp only [List.mem_singleton] at he
      exact he ▸ rfl
    · rcases List.mem_cons.mp he with he | he
      · exact he ▸ rfl
      · exact ih e he

theorem callArpOpGo_trace_take (env : ArpEnv) (opName : String) :
    ∀ ss : List Strategy, (callArpOpGo env opName ss).2.map Prod.snd =
      ss.take ((ss.takeWhile (fun s => !(env.opResult opName s))).length + 1) := by
  intro ss
  induction ss with
  | nil => simp [callArpOpGo]
  | cons s ss ih =>
    simp only [callArpOpGo]
    by_cases hs : env.opResult opName s = true
    · simp [hs, List.takeWhile_cons, List.take]
    · have hs' : env.opResult opName s = false := by
        cases h : env.opResult opName s
        · rfl
        · exact absurd h hs
      simp [hs', List.takeWhile_cons, List.take, ih]

theorem callArpOp_filter_same (env : ArpEnv) (opName armature mesh : String) :
    (callArpOp env opName armature mesh).2.filter (fun e => e.1 = opName) =
      (callArpOp env opName armature mesh).2 :=
  List.filter_eq_self.mpr (fun e he => by
    simp [callArpOpGo_entry_name env opName _ e he])

theorem callArpOp_filter_other (env : ArpEnv) (opName armature mesh other : String)
    (h : other ≠ opName) :
    (callArpOp env opName armature mesh).2.filter (fun e => e.1 = other) = [] :=
  List.filter_eq_nil_iff.mpr (fun e he => by
    simp [callArpOpGo_entry_name env opName _ e he, h.symm])

/-- C2 amended: in the rig-binding sequence (all four operators available),
only the scale-normalization step retries across the ordered four-strategy
list, stopping at the first strategy that reports success (its invocation
contexts are exactly the strategies up to and including the first success);
the marker-estimation, rig-matching and skin-binding steps are each
attempted at most once, marker estimation and rig matching with the
armature-alone canonical selection and skin binding with the produced rig
active and the rig-plus-mesh selection in object mode. -/
theorem C2_scale_retries_bind_single (env : ArpEnv) (armature mesh : String)
    (h1 : env.hasOp "auto_scale" = true) (h2 : env.hasOp "guess_markers" = true)
    (h3 : env.hasOp "match_to_rig" = true) (h4 : env.hasOp "bind_to_rig" = true) :
    ((runArpSequence env armature mesh).trace.filter
        (fun e => e.1 = "auto_scale")).map Prod.snd =
      (arpStrategies armature mesh).take
        (((arpStrategies armature mesh).takeWhile
            (fun s => !(env.opResult "auto_scale" s))).length + 1) ∧
    (((runArpSequence env armature mesh).trace.filter
        (fun e => e.1 = "guess_markers")).map Prod.snd = [] ∨
      ((runArpSequence env armature mesh).trace.filter
        (fun e => e.1 = "guess_markers")).map Prod.snd =
        [singleCtx [armature] armature "OBJECT"]) ∧
    (((runArpSequence env armature mesh).trace.filter
        (fun e => e.1 = "match_to_rig")).map Prod.snd = [] ∨
      ((runArpSequence env armature mesh).trace.filter
        (fun e => e.1 = "match_to_rig")).map Prod.snd =
        [singleCtx [armature] armature "OBJECT"]) ∧
    (∃ rig, ((runArpSequence env armature mesh).trace.filter
        (fun e => e.1 = "bind_to_rig")).map Prod.snd = [] ∨
      ((runArpSequence env armature mesh).trace.filter
        (fun e => e.1 = "bind_to_rig")).map Prod.snd =
        [singleCtx [rig, mesh] rig "OBJECT"]) := by
  have hops : (!(env.hasOp "auto_scale" && env.hasOp "guess_markers" &&
      env.hasOp "match_to_rig" && env.hasOp "bind_to_rig")) = false := by
    simp [h1, h2, h3, h4]
  have hauto := callArpOp_filter_same env "auto_scale" armature mesh
  have hg := callArpOp_filter_other env "auto_scale" armature mesh "guess_markers"
    (by decide)
  have hm := callArpOp_filter_other env "auto_scale" armature mesh "match_to_rig"
    (by decide)
  have hb := callArpOp_filter_other env "auto_scale" armature mesh "bind_to_rig"
    (by decide)
  have htake : (callArpOp env "auto_scale" armature mesh).2.map Prod.snd =
      (arpStrategies armature mesh).take
        (((arpStrategies armature mesh).takeWhile
            (fun s => !(env.opResult "auto_scale" s))).length + 1) :=
    callArpOpGo_trace_take env "auto_scale" (arpStrategies armature mesh)
  simp only [runArpSequence, hops, Bool.false_eq_true, if_false]
  split
  · exact ⟨by simpa [hauto] using htake, Or.inl (by simp [hg]),
      Or.inl (by simp [hm]), armature, Or.inl (by simp [hb])⟩
  · split
    · refine ⟨?_, Or.inr ?_, Or.inl ?_, armature, Or.inl ?_⟩ <;>
        simp [List.filter_append, hauto, hg, hm, hb, htake]
    · split
      · refine ⟨?_, Or.inr ?_, Or.inr ?_, armature, Or.inl ?_⟩ <;>
          simp [List.filter_append, hauto, hg, hm, hb, htake]
      · split
        · refine ⟨?_, Or.inr ?_, Or.inr ?_,
            (pickNewRig env.armaturesAfter (env.armaturesBefore.map Prod.fst)).getD armature,
            Or.inr ?_⟩ <;>
            simp [List.filter_append, hauto, hg, hm, hb, htake]
        · refine ⟨?_, Or.inr ?_, Or.inr ?_,
            (pickNewRig env.armaturesAfter (env.armaturesBefore.map Prod.fst)).getD armature,
            Or.inr ?_⟩ <;>
            simp [List.filter_append, hauto, hg, hm, hb, htake]

/-- Witness for the amended C2: all operators available and succeeding on
the first strategy. -/
def sampleEnvC2b : ArpEnv :=
  ⟨fun _ => true, fun _ _ => true, [("Arm", 10)], [("Arm", 10)]⟩

/-- Witness for the amended C2 at a concrete environment. -/
theorem C2_scale_retries_bind_single_witness :
    (((runArpSequence sampleEnvC2b "Arm" "Mesh").trace.filter
        (fun e => e.1 = "auto_scale")).map Prod.snd =
      (arpStrategies "Arm" "Mesh").take
        (((arpStrategies "Arm" "Mesh").takeWhile
            (fun s => !(sampleEnvC2b.opResult "auto_scale" s))).length + 1) ∧
    (((runArpSequence sampleEnvC2b "Arm" "Mesh").trace.filter
        (fun e => e.1 = "guess_markers")).map Prod.snd = [] ∨
      ((runArpSequence sampleEnvC2b "Arm" "Mesh").trace.filter
        (fun e => e.1 = "guess_markers")).map Prod.snd =
        [singleCtx ["Arm"] "Arm" "OBJECT"]) ∧
    (((runArpSequence sampleEnvC2b "Arm" "Mesh").trace.filter
        (fun e => e.1 = "match_to_rig")).map Prod.snd = [] ∨
      ((runArpSequence sampleEnvC2b "Arm" "Mesh").trace.filter
        (fun e => e.1 = "match_to_rig")).map Prod.snd =
        [singleCtx ["Arm"] "Arm" "OBJECT"]) ∧
    (∃ rig, ((runArpSequence sampleEnvC2b "Arm" "Mesh").trace.filter
        (fun e => e.1 = "bind_to_rig")).map Prod.snd = [] ∨
      ((runArpSequence sampleEnvC2b "Arm" "Mesh").trace.filter
        (fun e => e.1 = "bind_to_rig")).map Prod.snd =
        [singleCtx [rig, "Mesh"] rig "OBJECT"])) :=
  C2_scale_retries_bind_single sampleEnvC2b "Arm" "Mesh" rfl rfl rfl rfl

/-! ### Asset pipeline state machine (C1) -/

/-- Collaborator surface of `process_single_vrm`: run configuration, the
outcome of the import/detection steps, the outcome of the rig-binding
sequence, and the success of the primary (FBX) export as a function of the
armature object exported with.  The terminal statuses map to the spec as
`arp` = RiggedExport, `fallback` = FallbackExport, `failed` = Failed. -/
structure PipeEnv where
  skipArp : Bool
  headless : Bool
  background : Bool
  vrmAddonOk : Bool
  importOk : Bool
  armatureFound : Option String
  meshesFound : List String
  mainMesh : Option String
  viewOverrideOk : Bool
  arpOutcome : Bool × Option String
  fbxExportOk : String → Bool

/-- Result of one `process_single_vrm` run: terminal status, message, and
the armature object passed to each `export_all_formats` invocation in
order. -/
structure PipeResult where
  status : String
  message : String
  attempts : List String
deriving DecidableEq

/-- Embedding of the control flow of `process_single_vrm` (per-asset state
machine).  Mesh re-collection and the per-format export loop are carried by
the environment; only the primary-format success drives the terminal
status, as in `conversion_only_export`. -/
def processSingleVrm (env : PipeEnv) : PipeResult :=
  if !env.vrmAddonOk then ⟨"failed", "VRM addon missing", []⟩
  else if !env.importOk then ⟨"failed", "VRM import failed", []⟩
  else
    match env.armatureFound with
    | none => ⟨"failed", "No armature", []⟩
    | some armature =>
      if env.meshesFound = [] then ⟨"failed", "No meshes", []⟩
      else
        let tryArp := !env.skipArp && !env.headless && !env.background
        let arpRes :=
          if tryArp && env.mainMesh.isSome then
            (if env.viewOverrideOk then env.arpOutcome else (false, none))
          else (false, none)
        let arpRig := if arpRes.1 then arpRes.2.getD armature else armature
        if arpRes.1 then
          if env.fbxExportOk arpRig then ⟨"arp", "ARP succeeded", [arpRig]⟩
          else if env.fbxExportOk armature then
            ⟨"arp", "ARP succeeded", [arpRig, armature]⟩
          else ⟨"failed", "ARP and conversion-only export failed", [arpRig, armature]⟩
        else
          if env.fbxExportOk armature then
            ⟨"fallback", "Conversion-only succeeded", [armature]⟩
          else ⟨"failed", "ARP and conversion-only export failed", [armature]⟩

/-- Environment in which rig-binding succeeds, the rigged export of the
primary format fails, and the conversion-only export of the primary format
succeeds. -/
def sampleEnvC1 : PipeEnv :=
  ⟨false, false, false, true, true, some "Armature", ["Body"], some "Body",
    true, (true, some "rig"), fun r => decide (r = "Armature")⟩

/-- C1 counterexample: when rig-binding succeeds, the rigged primary export
fails, and the second conversion-only attempt (run against the original
armature) succeeds, the code returns the status `arp` (RiggedExport), not
`fallback` (FallbackExport) as the claim states. -/
theorem C1_counterexample_outcome_is_rigged :
    processSingleVrm sampleEnvC1 = ⟨"arp", "ARP succeeded", ["rig", "Armature"]⟩ ∧
    sampleEnvC1.fbxExportOk "rig" = false ∧
    sampleEnvC1.fbxExportOk "Armature" = true ∧
    (processSingleVrm sampleEnvC1).status ≠ "fallback" := by
  decide

/-- C1 amended: for every asset where rig-binding succeeds but the first
(rigged) primary FBX export fails, a second conversion-only export attempt
runs against the original skeleton; if that second attempt succeeds the
terminal outcome is RiggedExport (`arp`) — still not Failed — and only if
it also fails is the job Failed. -/
theorem C1_rigged_retry_against_original (env : PipeEnv) (a rig : String)
    (hAddon : env.vrmAddonOk = true) (hImp : env.importOk = true)
    (hArm : env.armatureFound = some a) (hMesh : env.meshesFound ≠ [])
    (hSkip : env.skipArp = false) (hHead : env.headless = false)
    (hBg : env.background = false) (hMain : env.mainMesh.isSome = true)
    (hOv : env.viewOverrideOk = true) (hArp : env.arpOutcome = (true, some rig))
    (hFail : env.fbxExportOk rig = false) :
    (processSingleVrm env).attempts = [rig, a] ∧
    (env.fbxExportOk a = true → (processSingleVrm env).status = "arp") ∧
    (env.fbxExportOk a = false → (processSingleVrm env).status = "failed") := by
  cases hsecond : env.fbxExportOk a <;>
    simp [processSingleVrm, hAddon, hImp, hArm, hMesh, hSkip, hHead, hBg,
      hMain, hOv, hArp, hFail, hsecond]

/-- Witness for the amended C1 in the environment of the counterexample. -/
theorem C1_rigged_retry_against_original_witness :
    (processSingleVrm sampleEnvC1).attempts = ["rig", "Armature"] ∧
    (sampleEnvC1.fbxExportOk "Armature" = true →
      (processSingleVrm sampleEnvC1).status = "arp") ∧
    (sampleEnvC1.fbxExportOk "Armature" = false →
      (processSingleVrm sampleEnvC1).status = "failed") :=
  C1_rigged_retry_against_original sampleEnvC1 "Armature" "rig"
    rfl rfl rfl (by decide) rfl rfl rfl rfl rfl rfl rfl

/-! ### Shader-graph data model and traversals (C6, and the resolver used by
the material rewriter) -/

/-- A named input socket of a node (name and a graph-wide socket id). -/
structure GSocket where
  sname : String
  sid : Nat
deriving DecidableEq

/-- A node link: index of the source node in the tree and the id of the
destination socket. -/
structure GLink where
  fromNode : Nat
  toSocketId : Nat
deriving DecidableEq

/-- A shader node, restricted to the attributes the traversals read:
type, name, referenced image (name) with the presence of an Alpha output,
referenced sub-tree (for GROUP nodes), and named input sockets. -/
structure GNode where
  ntype : String
  nname : String
  imageName : Option String
  alphaOut : Bool
  subtree : Option Nat
  inputs : List GSocket
deriving DecidableEq

/-- A node tree: name, nodes and links. -/
structure GTree where
  tname : String
  nodes : List GNode
  links : List GLink
deriving DecidableEq

/-- The universe of node trees reachable in one material graph, keyed by
identity (Python `id(ntree)`). -/
structure Graph where
  trees : List (Nat × GTree)
deriving DecidableEq

/-- Tree lookup by identity. -/
def Graph.lookup (g : Graph) (i : Nat) : Option GTree :=
  (g.trees.find? (fun p => p.1 = i)).map Prod.snd

/-- Image-name test `"normal" in name_low or "nrm" in name_low`. -/
def isNormalImageName (nm : String) : Bool :=
  strContains (pyLower nm) "normal" || strContains (pyLower nm) "nrm"

/-- Per-node main-image contribution of the collection loop. -/
def nodeTexMain (n : GNode) : List (String × Bool) :=
  if n.ntype = "TEX_IMAGE" then
    match n.imageName with
    | some img => if isNormalImageName img then [] else [(img, n.alphaOut)]
    | none => []
  else []

/-- Per-node normal-image contribution of the collection loop. -/
def nodeTexNorm (n : GNode) : List String :=
  if n.ntype = "TEX_IMAGE" then
    match n.imageName with
    | some img => if isNormalImageName img then [img] else []
    | none => []
  else []

/-- Per-node GROUP descent of the collection loop. -/
def nodeSub
    (rec : Option Nat → List Nat → Option (List (String × Bool) × List String × List Nat))
    (n : GNode) (visited : List Nat) :
    Option (List (String × Bool) × List String × List Nat) :=
  if n.ntype = "GROUP" then
    match n.subtree with
    | some t => rec (some t) visited
    | none => some ([], [], visited)
  else some ([], [], visited)

/-- Node loop of `_collect_images_from_tree`, parameterised by the
recursive call used for GROUP nodes; the visited set is threaded through
the loop as in the Python mutable set. -/
def collectNodesWith
    (rec : Option Nat → List Nat → Option (List (String × Bool) × List String × List Nat)) :
    List GNode → List Nat → Option (List (String × Bool) × List String × List Nat)
  | [], visited => some ([], [], visited)
  | n :: rest, visited =>
    match nodeSub rec n visited with
    | none => none
    | some (m1, n1, v1) =>
      match collectNodesWith rec rest v1 with
      | none => none
      | some (m2, n2, v2) =>
        some (nodeTexMain n ++ m1 ++ m2, nodeTexNorm n ++ n1 ++ n2, v2)

/-- Fuel-instrumented embedding of `_collect_images_from_tree` on a tree
reference.  `none` is returned only when the fuel bound is hit; the C6
theorem shows that a fuel of one more than the number of sub-graphs always
suffices, which is the termination argument of the visited-set guard. -/
def collectImagesF : Nat → Graph → Option Nat → List Nat →
    Option (List (String × Bool) × List String × List Nat)
  | 0, _, _, _ => none
  | _ + 1, _, none, visited => some ([], [], visited)
  | fuel + 1, g, some t, visited =>
    match g.lookup t with
    | none => some ([], [], visited)
    | some tree =>
      if t ∈ visited then some ([], [], visited)
      else collectNodesWith (collectImagesF fuel g) tree.nodes (t :: visited)

/-- Input-name test for the targeted walk: `"lit"`, `"base"` and
`"color"`, or exactly `"color"`. -/
def litInputName (nm : String) : Bool :=
  strContains (pyLower nm) "lit" ||
    (strContains (pyLower nm) "base" && strContains (pyLower nm) "color") ||
    pyLower nm = "color"

/-- Base-color lookup behind a Principled BSDF shader node. -/
def principledBaseColor (tree : GTree) (shader : GNode) : Option (String × Bool) :=
  match shader.inputs.find? (fun s => s.sname = "Base Color") with
  | none => none
  | some bc =>
    match (tree.links.filter (fun l => l.toSocketId = bc.sid)).head? with
    | none => none
    | some lb =>
      match tree.nodes[lb.fromNode]? with
      | none => none
      | some n2 =>
        if n2.ntype = "TEX_IMAGE" && n2.imageName.isSome then
          n2.imageName.map (fun i => (i, n2.alphaOut))
        else none

/-- Link loop of the first phase of the group-output search (name-matching
inputs), parameterised by the recursive call for nested GROUP sources. -/
def phase1Links
    (rec : Option Nat → List Nat → Option (Option (String × Bool) × List Nat))
    (grp : GTree) (inp : GSocket) :
    List GLink → List Nat → Option (Option (String × Bool) × List Nat)
  | [], visited => some (none, visited)
  | l :: ls, visited =>
    if l.toSocketId ≠ inp.sid then phase1Links rec grp inp ls visited
    else
      match grp.nodes[l.fromNode]? with
      | none => phase1Links rec grp inp ls visited
      | some n =>
        if n.ntype = "TEX_IMAGE" && n.imageName.isSome then
          some (n.imageName.map (fun i => (i, n.alphaOut)), visited)
        else if n.ntype = "GROUP" && n.subtree.isSome then
          match rec n.subtree visited with
          | none => none
          | some (some r, v2) => some (some r, v2)
          | some (none, v2) => phase1Links rec grp inp ls v2
        else phase1Links rec grp inp ls visited

/-- Input loop of the first phase of the group-output search. -/
def phase1Inputs
    (rec : Option Nat → List Nat → Option (Option (String × Bool) × List Nat))
    (grp : GTree) :
    List GSocket → List Nat → Option (Option (String × Bool) × List Nat)
  | [], visited => some (none, visited)
  | inp :: rest, visited =>
    if litInputName inp.sname then
      match phase1Links rec grp inp grp.links visited with
      | none => none
      | some (some r, v2) => some (some r, v2)
      | some (none, v2) => phase1Inputs rec grp rest v2
    else phase1Inputs rec grp rest visited

/-- Link loop of the second (permissive) phase: first image source feeding
any group-output input, without recursion. -/
def phase2Links (grp : GTree) (inp : GSocket) : List GLink → Option (String × Bool)
  | [] => none
  | l :: ls =>
    if l.toSocketId ≠ inp.sid then phase2Links grp inp ls
    else
      match grp.nodes[l.fromNode]? with
      | none => phase2Links grp inp ls
      | some n =>
        if n.ntype = "TEX_IMAGE" && n.imageName.isSome then
          n.imageName.map (fun i => (i, n.alphaOut))
        else phase2Links grp inp ls

/-- Input loop of the second phase. -/
def phase2Inputs (grp : GTree) : List GSocket → Option (String × Bool)
  | [] => none
  | inp :: rest =>
    match phase2Links grp inp grp.links with
    | some r => some r
    | none => phase2Inputs grp rest

/-- Shader node feeding the material-output Surface socket: first
OUTPUT_MATERIAL node, its Surface input, the first link into that socket,
and the link source node (each missing step makes the walk give up). -/
def surfaceShader (tree : GTree) : Option GNode :=
  match tree.nodes.find? (fun n => n.ntype = "OUTPUT_MATERIAL") with
  | none => none
  | some outNode =>
    match outNode.inputs.find? (fun s => s.sname = "Surface") with
    | none => none
    | some surf =>
      match (tree.links.filter (fun l => l.toSocketId = surf.sid)).head? with
      | none => none
      | some l0 => tree.nodes[l0.fromNode]?

/-- Fuel-instrumented embedding of `_find_lit_or_base_color_image`:
walk from the material-output surface link to the shader node; follow a
Principled base color, or search the first group-output binding of a
lit/base-color input, recursing into nested groups with the shared visited
set; fall back to any image feeding the group output.  `none` is returned
only when the fuel bound is hit. -/
def findLitF : Nat → Graph → Option Nat → List Nat →
    Option (Option (String × Bool) × List Nat)
  | 0, _, _, _ => none
  | _ + 1, _, none, visited => some (none, visited)
  | fuel + 1, g, some t, visited =>
    match g.lookup t with
    | none => some (none, visited)
    | some tree =>
      if t ∈ visited then some (none, visited)
      else
        match surfaceShader tree with
        | none => some (none, t :: visited)
        | some shader =>
          if shader.ntype = "TEX_IMAGE" && shader.imageName.isSome then
            some (shader.imageName.map (fun i => (i, shader.alphaOut)), t :: visited)
          else if shader.ntype = "BSDF_PRINCIPLED" then
            some (principledBaseColor tree shader, t :: visited)
          else if shader.ntype = "GROUP" && shader.subtree.isSome then
            match shader.subtree with
            | none => some (none, t :: visited)
            | some st =>
              match g.lookup st with
              | none => some (none, t :: visited)
              | some grp =>
                match grp.nodes.find? (fun n => n.ntype = "GROUP_OUTPUT") with
                | none => some (none, t :: visited)
                | some gout =>
                  match phase1Inputs (findLitF fuel g) grp gout.inputs (t :: visited) with
                  | none => none
                  | some (some r, v2) => some (some r, v2)
                  | some (none, v2) => some (phase2Inputs grp gout.inputs, v2)
          else some (none, t :: visited)

/-- Number of sub-graphs not yet visited: the termination measure of the
visited-set guard. -/
def unvisitedCount (g : Graph) (visited : List Nat) : Nat :=
  (((g.trees.map Prod.fst).dedup).filter (fun i => !(visited.contains i))).length

/-! ### Termination of the guarded traversals (C6) -/

theorem filterSublistOfImp {l : List Nat} {p q : Nat → Bool}
    (hpq : ∀ x, q x = true → p x = true) : List.Sublist (l.filter q) (l.filter p) := by
  have hcong : l.filter (fun a => q a && p a) = l.filter q :=
    List.filter_congr (fun x _ => by
      cases hq : q x with
      | false => simp [hq]
      | true => simp [hq, hpq x hq])
  rw [← hcong, ← List.filter_filter]
  exact List.filter_sublist _

theorem filterLengthLt {l : List Nat} {p q : Nat → Bool}
    (hpq : ∀ x, q x = true → p x = true) {t : Nat} (ht : t ∈ l) (hpt : p t = true)
    (hqt : q t = false) : (l.filter q).length < (l.filter p).length := by
  have hsub : List.Sublist (l.filter q) (l.filter p) := filterSublistOfImp hpq
  rcases Nat.lt_or_ge (l.filter q).length (l.filter p).length with h | h
  · exact h
  · exfalso
    have hlen : (l.filter q).length = (l.filter p).length :=
      le_antisymm hsub.length_le h
    have heq : l.filter q = l.filter p := hsub.eq_of_length hlen
    have hmem : t ∈ l.filter q := heq ▸ List.mem_filter.mpr ⟨ht, hpt⟩
    have := (List.mem_filter.mp hmem).2
    simp [hqt] at this

theorem unvisitedCount_le (g : Graph) (v v' : List Nat) (hs : ∀ x ∈ v, x ∈ v') :
    unvisitedCount g v' ≤ unvisitedCount g v := by
  simp only [unvisitedCount]
  refine (filterSublistOfImp ?_).length_le
  intro x hx
  have hxv' : x ∉ v' := by simpa using hx
  have hxv : x ∉ v := fun hm => hxv' (hs x hm)
  simpa using hxv

theorem unvisitedCount_cons_lt (g : Graph) (visited : List Nat) (t : Nat)
    (hmem : t ∈ g.trees.map Prod.fst) (hnv : t ∉ visited) :
    unvisitedCount g (t :: visited) < unvisitedCount g visited := by
  simp only [unvisitedCount]
  refine filterLengthLt ?_ (List.mem_dedup.mpr hmem) ?_ ?_
  · intro x hx
    have hx' : x ∉ t :: visited := by simpa using hx
    have : x ∉ visited := fun hm => hx' (List.mem_cons_of_mem _ hm)
    simpa using this
  · simpa using hnv
  · simp

theorem graphLookupMem {g : Graph} {t : Nat} {tree : GTree}
    (h : g.lookup t = some tree) : t ∈ g.trees.map Prod.fst := by
  simp only [Graph.lookup] at h
  rcases hf : g.trees.find? (fun p => p.1 = t) with _ | p
  · rw [hf] at h; cases h
  · have hp := List.find?_some hf
    have hmem := List.mem_of_find?_eq_some hf
    simp only [decide_eq_true_eq] at hp
    exact hp ▸ List.mem_map_of_mem Prod.fst hmem

theorem nodeSub_mono
    (rec : Option Nat → List Nat → Option (List (String × Bool) × List String × List Nat))
    (hrec : ∀ tid v r, rec tid v = some r → ∀ x ∈ v, x ∈ r.2.2)
    (n : GNode) (v : List Nat) (r : List (String × Bool) × List String × List Nat)
    (h : nodeSub rec n v = some r) : ∀ x ∈ v, x ∈ r.2.2 := by
  simp only [nodeSub] at h
  split at h
  · rcases hst : n.subtree with _ | t
    · rw [hst] at h
      cases h
      exact fun x hx => hx
    · rw [hst] at h
      exact hrec _ _ _ h
  · cases h
    exact fun x hx => hx

theorem collectNodesWith_mono
    (rec : Option Nat → List Nat → Option (List (String × Bool) × List String × List Nat))
    (hrec : ∀ tid v r, rec tid v = some r → ∀ x ∈ v, x ∈ r.2.2) :
    ∀ ns v r, collectNodesWith rec ns v = some r → ∀ x ∈ v, x ∈ r.2.2 := by
  intro ns
  induction ns with
  | nil =>
    intro v r h
    simp only [collectNodesWith] at h
    cases h
    exact fun x hx => hx
  | cons n rest ih =>
    intro v r h
    simp only [collectNodesWith] at h
    split at h
    · exact absurd h (by simp)
    · rename_i m1 n1 v1 hs
      split at h
      · exact absurd h (by simp)
      · rename_i m2 n2 v2 hc
        cases h
        intro x hx
        exact ih v1 (m2, n2, v2) hc x (nodeSub_mono rec hrec n v (m1, n1, v1) hs x hx)

theorem collectImagesF_mono :
    ∀ fuel (g : Graph) tid v r, collectImagesF fuel g tid v = some r →
      ∀ x ∈ v, x ∈ r.2.2 := by
  intro fuel
  induction fuel with
  | zero => intro g tid v r h; simp [collectImagesF] at h
  | succ fuel ih =>
    intro g tid v r h
    cases tid with
    | none =>
      simp only [collectImagesF] at h
      cases h
      exact fun x hx => hx
    | some t =>
      simp only [collectImagesF] at h
      split at h
      · cases h; exact fun x hx => hx
      · rename_i tree hl
        split at h
        · cases h; exact fun x hx => hx
        · intro x hx
          exact collectNodesWith_mono _ (fun tid v r hr => ih g tid v r hr)
            tree.nodes (t :: v) r h x (List.mem_cons_of_mem _ hx)

theorem collectNodesWith_isSome (g : Graph)
    (rec : Option Nat → List Nat → Option (List (String × Bool) × List String × List Nat))
    (B : Nat)
    (hmono : ∀ tid v r, rec tid v = some r → ∀ x ∈ v, x ∈ r.2.2)
    (hsome : ∀ tid v, unvisitedCount g v < B → (rec tid v).isSome) :
    ∀ ns v, unvisitedCount g v < B → (collectNodesWith rec ns v).isSome := by
  intro ns
  induction ns with
  | nil => intro v _; simp [collectNodesWith]
  | cons n rest ih =>
    intro v hv
    have hsub : (nodeSub rec n v).isSome := by
      simp only [nodeSub]
      split
      · rcases hst : n.subtree with _ | t
        · simp
        · exact hsome _ _ hv
      · simp
    obtain ⟨⟨m1, n1, v1⟩, hs⟩ := Option.isSome_iff_exists.mp hsub
    have hv1 : ∀ x ∈ v, x ∈ v1 := nodeSub_mono rec hmono n v (m1, n1, v1) hs
    have hrest := ih v1 (lt_of_le_of_lt (unvisitedCount_le g v v1 hv1) hv)
    obtain ⟨⟨m2, n2, v2⟩, hc⟩ := Option.isSome_iff_exists.mp hrest
    simp [collectNodesWith, hs, hc]

theorem collectImagesF_isSome :
    ∀ fuel (g : Graph) tid v, unvisitedCount g v < fuel →
      (collectImagesF fuel g tid v).isSome := by
  intro fuel
  induction fuel with
  | zero => intro g tid v h; exact absurd h (Nat.not_lt_zero _)
  | succ fuel ih =>
    intro g tid v hv
    cases tid with
    | none => simp [collectImagesF]
    | some t =>
      simp only [collectImagesF]
      split
      · simp
      · rename_i tree hl
        split
        · simp
        · rename_i hnv
          have hlt : unvisitedCount g (t :: v) < unvisitedCount g v :=
            unvisitedCount_cons_lt g v t (graphLookupMem hl) hnv
          have hB : unvisitedCount g (t :: v) < fuel := by omega
          exact collectNodesWith_isSome g _ fuel
            (fun tid v r hr => collectImagesF_mono fuel g tid v r hr)
            (fun tid v h => ih g tid v h) tree.nodes (t :: v) hB

theorem phase1Links_mono
    (rec : Option Nat → List Nat → Option (Option (String × Bool) × List Nat))
    (hrec : ∀ tid v r, rec tid v = some r → ∀ x ∈ v, x ∈ r.2)
    (grp : GTree) (inp : GSocket) :
    ∀ ls v r, phase1Links rec grp inp ls v = some r → ∀ x ∈ v, x ∈ r.2 := by
  intro ls
  induction ls with
  | nil =>
    intro v r h
    simp only [phase1Links] at h
    cases h
    exact fun x hx => hx
  | cons l ls ih =>
    intro v r h
    simp only [phase1Links] at h
    split at h
    · exact ih v r h
    · split at h
      · exact ih v r h
      · rename_i n hn
        split at h
        · cases h; exact fun x hx => hx
        · split at h
          · split at h
            · exact absurd h (by simp)
            · rename_i r0 v2 hr
              cases h
              exact fun x hx => hrec _ _ _ hr x hx
            · rename_i v2 hr
              exact fun x hx => ih v2 r h x (hrec _ _ _ hr x hx)
          · exact ih v r h

theorem phase1Inputs_mono
    (rec : Option Nat → List Nat → Option (Option (String × Bool) × List Nat))
    (hrec : ∀ tid v r, rec tid v = some r → ∀ x ∈ v, x ∈ r.2)
    (grp : GTree) :
    ∀ inps v r, phase1Inputs rec grp inps v = some r → ∀ x ∈ v, x ∈ r.2 := by
  intro inps
  induction inps with
  | nil =>
    intro v r h
    simp only [phase1Inputs] at h
    cases h
    exact fun x hx => hx
  | cons inp rest ih =>
    intro v r h
    simp only [phase1Inputs] at h
    split at h
    · split at h
      · exact absurd h (by simp)
      · rename_i r0 v2 hr
        cases h
        exact fun x hx => phase1Links_mono rec hrec grp inp grp.links v _ hr x hx
      · rename_i v2 hr
        exact fun x hx =>
          ih v2 r h x (phase1Links_mono rec hrec grp inp grp.links v _ hr x hx)
    · exact ih v r h

theorem findLitF_mono :
    ∀ fuel (g : Graph) tid v r, findLitF fuel g tid v = some r →
      ∀ x ∈ v, x ∈ r.2 := by
  intro fuel
  induction fuel with
  | zero => intro g tid v r h; simp [findLitF] at h
  | succ fuel ih =>
    intro g tid v r h
    cases tid with
    | none =>
      simp only [findLitF] at h
      cases h
      exact fun x hx => hx
    | some t =>
      simp only [findLitF] at h
      split at h
      · cases h; exact fun x hx => hx
      · rename_i tree hl
        split at h
        · cases h; exact fun x hx => hx
        · split at h
          · cases h; exact fun x hx => List.mem_cons_of_mem _ hx
          · rename_i shader hsh
            split at h
            · cases h; exact fun x hx => List.mem_cons_of_mem _ hx
            · split at h
              · cases h; exact fun x hx => List.mem_cons_of_mem _ hx
              · split at h
                · split at h
                  · cases h; exact fun x hx => List.mem_cons_of_mem _ hx
                  · rename_i st hst
                    split at h
                    · cases h; exact fun x hx => List.mem_cons_of_mem _ hx
                    · rename_i grp hgrp
                      split at h
                      · cases h; exact fun x hx => List.mem_cons_of_mem _ hx
                      · rename_i gout hgout
                        split at h
                        · exact absurd h (by simp)
                        · rename_i r0 v2 hr
                          cases h
                          exact fun x hx =>
                            phase1Inputs_mono _ (fun tid v r hq => ih g tid v r hq)
                              grp gout.inputs (t :: v) _ hr x (List.mem_cons_of_mem _ hx)
                        · rename_i v2 hr
                          cases h
                          exact fun x hx =>
                            phase1Inputs_mono _ (fun tid v r hq => ih g tid v r hq)
                              grp gout.inputs (t :: v) _ hr x (List.mem_cons_of_mem _ hx)
                · cases h; exact fun x hx => List.mem_cons_of_mem _ hx

theorem phase1Links_isSome (g : Graph)
    (rec : Option Nat → List Nat → Option (Option (String × Bool) × List Nat))
    (B : Nat)
    (hmono : ∀ tid v r, rec tid v = some r → ∀ x ∈ v, x ∈ r.2)
    (hsome : ∀ tid v, unvisitedCount g v < B → (rec tid v).isSome)
    (grp : GTree) (inp : GSocket) :
    ∀ ls v, unvisitedCount g v < B → (phase1Links rec grp inp ls v).isSome := by
  intro ls
  induction ls with
  | nil => intro v _; simp [phase1Links]
  | cons l ls ih =>
    intro v hv
    simp only [phase1Links]
    split
    · exact ih v hv
    · split
      · exact ih v hv
      · rename_i n hn
        split
        · simp
        · split
          · obtain ⟨⟨ro, v2⟩, hr⟩ := Option.isSome_iff_exists.mp (hsome n.subtree v hv)
            cases ro with
            | some r0 => simp [hr]
            | none =>
              have hv2 : ∀ x ∈ v, x ∈ v2 := hmono _ _ _ hr
              have hrest := ih v2 (lt_of_le_of_lt (unvisitedCount_le g v v2 hv2) hv)
              simpa [hr] using hrest
          · exact ih v hv

theorem phase1Inputs_isSome (g : Graph)
    (rec : Option Nat → List Nat → Option (Option (String × Bool) × List Nat))
    (B : Nat)
    (hmono : ∀ tid v r, rec tid v = some r → ∀ x ∈ v, x ∈ r.2)
    (hsome : ∀ tid v, unvisitedCount g v < B → (rec tid v).isSome)
    (grp : GTree) :
    ∀ inps v, unvisitedCount g v < B → (phase1Inputs rec grp inps v).isSome := by
  intro inps
  induction inps with
  | nil => intro v _; simp [phase1Inputs]
  | cons inp rest ih =>
    intro v hv
    simp only [phase1Inputs]
    split
    · obtain ⟨⟨ro, v2⟩, hr⟩ := Option.isSome_iff_exists.mp
        (phase1Links_isSome g rec B hmono hsome grp inp grp.links v hv)
      cases ro with
      | some r0 => simp [hr]
      | none =>
        have hv2 : ∀ x ∈ v, x ∈ v2 := phase1Links_mono rec hmono grp inp grp.links v _ hr
        have hrest := ih v2 (lt_of_le_of_lt (unvisitedCount_le g v v2 hv2) hv)
        simpa [hr] using hrest
    · exact ih v hv

theorem findLitF_isSome :
    ∀ fuel (g : Graph) tid v, unvisitedCount g v < fuel →
      (findLitF fuel g tid v).isSome := by
  intro fuel
  induction fuel with
  | zero => intro g tid v h; exact absurd h (Nat.not_lt_zero _)
  | succ fuel ih =>
    intro g tid v hv
    cases tid with
    | none => simp [findLitF]
    | some t =>
      simp only [findLitF]
      split
      · simp
      · rename_i tree hl
        split
        · simp
        · rename_i hnv
          have hlt : unvisitedCount g (t :: v) < unvisitedCount g v :=
            unvisitedCount_cons_lt g v t (graphLookupMem hl) hnv
          have hB : unvisitedCount g (t :: v) < fuel := by omega
          split
          · simp
          · split
            · simp
            · split
              · simp
              · split
                · split
                  · simp
                  · split
                    · simp
                    · rename_i grp hgrp
                      split
                      · simp
                      · rename_i gout hgout
                        obtain ⟨⟨ro, v2⟩, hr⟩ := Option.isSome_iff_exists.mp
                          (phase1Inputs_isSome g (findLitF fuel g) fuel
                            (fun tid v r hq => findLitF_mono fuel g tid v r hq)
                            (fun tid v h => ih g tid v h) grp gout.inputs (t :: v) hB)
                        cases ro with
                        | some r0 => simp [hr]
                        | none => simp [hr]
                · simp

/-- C6: the shader-graph traversal functions (the targeted base-color walk
and the fallback full-graph image collection) terminate on every node
graph, including graphs whose group nodes reference each other cyclically:
with the recursion guarded by the visited set checked before descending
into a sub-graph, a recursion budget of one more than the number of
sub-graphs always suffices (the fuel-instrumented embeddings never hit
their fuel bound). -/
theorem C6_traversals_terminate (g : Graph) (tid : Option Nat) :
    (collectImagesF (g.trees.length + 1) g tid []).isSome ∧
    (findLitF (g.trees.length + 1) g tid []).isSome := by
  have h1 : (((g.trees.map Prod.fst).dedup).filter
      (fun i => !(List.contains ([] : List Nat) i))).length ≤
      ((g.trees.map Prod.fst).dedup).length := (List.filter_sublist _).length_le
  have h2 : ((g.trees.map Prod.fst).dedup).length ≤ (g.trees.map Prod.fst).length :=
    (List.dedup_sublist _).length_le
  have h3 : (g.trees.map Prod.fst).length = g.trees.length := List.length_map _ _
  have hcnt : unvisitedCount g [] < g.trees.length + 1 := by
    simp only [unvisitedCount]
    omega
  exact ⟨collectImagesF_isSome _ g tid [] hcnt, findLitF_isSome _ g tid [] hcnt⟩

/-! ### Materials and export preparation (C3, C4) -/

/-- One image of `bpy.data.images` as seen by the colorspace pass. -/
structure MImg where
  iname : String
  colorspace : String
deriving DecidableEq

/-- A Blender material, restricted to the attributes export preparation
touches.  `mid` models object identity, `tree` references the node tree in
the shared `Graph`, and the alpha threshold is carried as an exact
rational. -/
structure BMaterial where
  mid : Nat
  mname : String
  useNodes : Bool
  tree : Option Nat
  useBackfaceCulling : Bool
  blendMethod : String
  alphaThreshold : ℚ
  shadowMethod : String
deriving DecidableEq

/-- Top-level nodes of the node tree of a material. -/
def treeNodes (g : Graph) (mat : BMaterial) : List GNode :=
  match mat.tree.bind g.lookup with
  | some tree => tree.nodes
  | none => []

/-- Per-node MToon/VRM marker test of `_is_vrm_mtoon_material`. -/
def nodeLooksMtoon (g : Graph) (n : GNode) : Bool :=
  (n.ntype = "GROUP" &&
    (match n.subtree.bind g.lookup with
     | some tr =>
       strContains (pyLower tr.tname) "mtoon" || strContains (pyLower tr.tname) "vrm"
     | none => false)) ||
  strContains (pyLower n.nname) "mtoon" || strContains (pyLower n.nname) "vrm"

/-- Embedding of `_is_vrm_mtoon_material`: special-shader detection by group
sub-tree name, node name, or material name. -/
def isVrmMtoonMaterial (g : Graph) (mat : BMaterial) : Bool :=
  if !mat.useNodes then false
  else if (treeNodes g mat).any (nodeLooksMtoon g) then true
  else strContains (pyLower mat.mname) "mtoon" || strContains (pyLower mat.mname) "vrm"

/-- Embedding of `_find_base_color_and_normal_images`, running the two
traversals at the sufficient fuel bound established by C6. -/
def findBaseColorAndNormalImages (g : Graph) (mat : BMaterial) :
    Option String × Bool × Option String :=
  if !mat.useNodes || mat.tree.isNone then (none, false, none)
  else
    let fuel := g.trees.length + 1
    let lit := ((findLitF fuel g mat.tree []).getD (none, [])).1
    let coll := (collectImagesF fuel g mat.tree []).getD ([], [], [])
    let mainPair :=
      match lit with
      | some p => some p
      | none => coll.1.head?
    let normal := coll.2.1.head?
    match mainPair with
    | some p => (some p.1, p.2, normal)
    | none => (none, false, normal)

/-- Fresh material identity for `bpy.data.materials.new`. -/
def freshMid (store : List BMaterial) : Nat :=
  (store.map (fun m => m.mid)).foldr max 0 + 1

/-- Fresh tree identity for the node tree of a newly created material. -/
def freshTreeId (g : Graph) : Nat :=
  ((g.trees.map Prod.fst).foldr max 0) + 1

/-- Node tree wired by `_material_to_principled_for_glb`: output node,
Principled BSDF, optional base-color image (with alpha link), optional
normal map chain. -/
def principledTreeFor (mainImage : Option String) (hasAlpha : Bool)
    (normalImage : Option String) : GTree :=
  let outNode : GNode :=
    ⟨"OUTPUT_MATERIAL", "Material Output", none, false, none, [⟨"Surface", 0⟩]⟩
  let principled : GNode :=
    ⟨"BSDF_PRINCIPLED", "Principled BSDF", none, false, none,
      [⟨"Base Color", 1⟩, ⟨"Alpha", 2⟩, ⟨"Normal", 3⟩]⟩
  let imgNodes : List GNode :=
    match mainImage with
    | some img => [⟨"TEX_IMAGE", "Image Texture", some img, true, none, []⟩]
    | none => []
  let imgLinks : List GLink :=
    match mainImage with
    | some _ => [⟨2, 1⟩] ++ (if hasAlpha then [⟨2, 2⟩] else [])
    | none => []
  let ni := 2 + imgNodes.length
  let normNodes : List GNode :=
    match normalImage with
    | some img =>
      [⟨"NORMAL_MAP", "Normal Map", none, false, none, [⟨"Color", 4⟩]⟩,
       ⟨"TEX_IMAGE", "Image Texture", some img, true, none, []⟩]
    | none => []
  let normLinks : List GLink :=
    match normalImage with
    | some _ => [⟨ni + 1, 4⟩, ⟨ni, 3⟩]
    | none => []
  ⟨"", [outNode, principled] ++ imgNodes ++ normNodes, [⟨1, 0⟩] ++ imgLinks ++ normLinks⟩

/-- Result of one converter invocation: the produced (or cached) material,
the material data-base, and the graph extended with any new node tree. -/
structure ConvResult where
  newMat : Option BMaterial
  store : List BMaterial
  graph : Graph
deriving DecidableEq

/-- Embedding of `_material_to_principled_for_glb`: fetch the derived
material from `bpy.data.materials` under the key
`{orig.name}_glb_principled`, or build it from the resolved images (with
the permissive top-level fallback of lines 700-706) and record it. -/
def materialToPrincipledForGlb (g : Graph) (store : List BMaterial)
    (orig : BMaterial) : ConvResult :=
  if !orig.useNodes then ⟨none, store, g⟩
  else
    let key := orig.mname ++ "_glb_principled"
    match store.find? (fun m => m.mname = key) with
    | some m => ⟨some m, store, g⟩
    | none =>
      let fb := findBaseColorAndNormalImages g orig
      let fb2 :=
        match fb.1 with
        | some _ => fb
        | none =>
          match (treeNodes g orig).find? (fun (n : GNode) =>
              n.ntype = "TEX_IMAGE" && n.imageName.isSome &&
              !(isNormalImageName (n.imageName.getD ""))) with
          | some n => (n.imageName, n.alphaOut, fb.2.2)
          | none => fb
      let newTreeId := freshTreeId g
      let newMat : BMaterial :=
        ⟨freshMid store, key, true, some newTreeId, false,
          (if fb2.1.isSome && fb2.2.1 then "HASHED" else "OPAQUE"),
          (1 : ℚ)/2,
          (if fb2.1.isSome && fb2.2.1 then "HASHED" else "OPAQUE")⟩
      ⟨some newMat, store ++ [newMat],
        ⟨g.trees ++ [(newTreeId, principledTreeFor fb2.1 fb2.2.1 fb2.2.2)]⟩⟩

/-- Socket-name lookup over every input socket of a tree. -/
def socketNameInTree (tree : GTree) (sid : Nat) : Option String :=
  (((tree.nodes.map (fun n => n.inputs)).flatten).find? (fun s => s.sid = sid)).map
    (fun s => s.sname)

/-- Non-color classification of a link destination (Normal / Metallic /
Roughness / Alpha sockets, or a normal/bump-named socket). -/
def linkTargetNoncolor (tree : GTree) (l : GLink) : Bool :=
  match socketNameInTree tree l.toSocketId with
  | none => false
  | some nm =>
    nm = "Normal" || nm = "Metallic" || nm = "Roughness" || nm = "Alpha" ||
      strContains (pyLower nm) "normal" || strContains (pyLower nm) "bump"

/-- Colorspace values written by one pass over a tree, in node order: one
write per top-level image node, to `Non-Color` or `sRGB` depending only on
the link structure and the image name. -/
def colorWrites (tree : GTree) : List (String × String) :=
  tree.nodes.enum.filterMap (fun p =>
    if p.2.ntype = "TEX_IMAGE" then
      match p.2.imageName with
      | some img =>
        let noncolor :=
          tree.links.any (fun l => l.fromNode = p.1 && linkTargetNoncolor tree l) ||
            strContains (pyLower img) "normal" || strContains (pyLower img) "nrm"
        some (img, if noncolor then "Non-Color" else "sRGB")
      | none => none
    else none)

/-- One colorspace assignment on the image data-base. -/
def applyWrite (imgs : List MImg) (w : String × String) : List MImg :=
  imgs.map (fun im => if im.iname = w.1 then ⟨im.iname, w.2⟩ else im)

/-- Sequential colorspace assignments. -/
def applyWrites (ws : List (String × String)) (imgs : List MImg) : List MImg :=
  ws.foldl applyWrite imgs

/-- Colorspace pass of `prepare_materials_for_export` (step 2) for one
material. -/
def updateColorspacesForMat (g : Graph) (mat : BMaterial) (imgs : List MImg) :
    List MImg :=
  match mat.tree.bind g.lookup with
  | none => imgs
  | some tree => applyWrites (colorWrites tree) imgs

/-- GLB transparency defaults of `prepare_materials_for_export` (step 3):
name-heuristic clip transparency versus opaque. -/
def glbBlend (mat : BMaterial) : BMaterial :=
  if ["face", "eyelash", "eye", "hair"].any
      (fun x => strContains (pyLower mat.mname) x) then
    { mat with blendMethod := "CLIP", alphaThreshold := (1 : ℚ)/2 }
  else { mat with blendMethod := "OPAQUE" }

/-- Result of processing one material slot in one pass of
`prepare_materials_for_export`. -/
structure PrepResult where
  slotMat : BMaterial
  graph : Graph
  store : List BMaterial
  images : List MImg
deriving DecidableEq

/-- First-encounter body of the slot loop of `prepare_materials_for_export`
(lines 514-571): set double-sided, rewrite a special-shader material through
the cached converter, fix image colorspaces, and apply GLB transparency
defaults. -/
def prepSlotMaterial (mode : String) (g : Graph) (store : List BMaterial)
    (imgs : List MImg) (mat0 : BMaterial) : PrepResult :=
  let mat1 := { mat0 with useBackfaceCulling := false }
  if !mat1.useNodes || mat1.tree.isNone then ⟨mat1, g, store, imgs⟩
  else
    let conv :=
      if isVrmMtoonMaterial g mat1 then materialToPrincipledForGlb g store mat1
      else ⟨none, store, g⟩
    let mat2 :=
      match conv.newMat with
      | some nm => { nm with useBackfaceCulling := false }
      | none => mat1
    let imgs2 := updateColorspacesForMat conv.graph mat2 imgs
    let mat3 := if mode = "GLB" then glbBlend mat2 else mat2
    ⟨mat3, conv.graph, conv.store, imgs2⟩

/-- Modelled from the spec: the derived-material cache key claimed by the
spec, `{original_name}_<target>_principled`, used only to compare the
claimed key against the key computed by the source. -/
def specDerivedMaterialKey (origName target : String) : String :=
  origName ++ "_" ++ target ++ "_principled"

/-- A minimal MToon material graph: one self-referencing group node whose
sub-tree name carries the MToon marker. -/
def mtoonTree : GTree :=
  ⟨"MToon Shader", [⟨"GROUP", "MToonGroup", none, false, some 0, []⟩], []⟩

/-- Graph holding only the MToon tree. -/
def sampleGraphC3 : Graph := ⟨[(0, mtoonTree)]⟩

/-- A special-shader material named `m`. -/
def sampleMatC3 : BMaterial :=
  ⟨1, "m", true, some 0, true, "OPAQUE", (1 : ℚ)/2, "OPAQUE"⟩

/-- C3 counterexample: preparing a special-shader material named `m` for the
OBJ target replaces it by the derived material named `m_glb_principled`; the
cache key claimed by the spec for that target would be `m_obj_principled`,
so the cache is not keyed per export target. -/
theorem C3_counterexample_key_not_per_target :
    isVrmMtoonMaterial sampleGraphC3 sampleMatC3 = true ∧
    (prepSlotMaterial "OBJ" sampleGraphC3 [] [] sampleMatC3).slotMat.mname =
      "m_glb_principled" ∧
    specDerivedMaterialKey "m" "obj" = "m_obj_principled" ∧
    ("m_glb_principled" : String) ≠ "m_obj_principled" := by
  decide

/-- C3 amended: the derived material is always named
`{original_name}_glb_principled` (no target in the key), and invoking the
converter again on the same original — for the same or any other export
target, since the key does not mention the target — returns the identical
cached material object and leaves the material data-base and graph
unchanged. -/
theorem C3_derived_material_cached (g : Graph) (store : List BMaterial)
    (orig : BMaterial) :
    (∀ m, (materialToPrincipledForGlb g store orig).newMat = some m →
      m.mname = orig.mname ++ "_glb_principled") ∧
    (materialToPrincipledForGlb (materialToPrincipledForGlb g store orig).graph
        (materialToPrincipledForGlb g store orig).store orig).newMat =
      (materialToPrincipledForGlb g store orig).newMat ∧
    (materialToPrincipledForGlb (materialToPrincipledForGlb g store orig).graph
        (materialToPrincipledForGlb g store orig).store orig).store =
      (materialToPrincipledForGlb g store orig).store ∧
    (materialToPrincipledForGlb (materialToPrincipledForGlb g store orig).graph
        (materialToPrincipledForGlb g store orig).store orig).graph =
      (materialToPrincipledForGlb g store orig).graph := by
  cases hu : orig.useNodes with
  | false =>
    refine ⟨?_, ?_, ?_, ?_⟩ <;> simp [materialToPrincipledForGlb, hu]
  | true =>
    rcases hf : store.find? (fun m => m.mname = orig.mname ++ "_glb_principled")
      with _ | m
    · refine ⟨?_, ?_, ?_, ?_⟩ <;>
        simp [materialToPrincipledForGlb, hu, hf, List.find?_append]
    · have hname : m.mname = orig.mname ++ "_glb_principled" := by
        have := List.find?_some hf
        simpa using this
      refine ⟨?_, ?_, ?_, ?_⟩ <;>
        simp [materialToPrincipledForGlb, hu, hf, hname]

/-- Witness for the amended C3 at the concrete MToon material `m`. -/
theorem C3_derived_material_cached_witness :
    ((materialToPrincipledForGlb sampleGraphC3 [] sampleMatC3).newMat.map
        (fun m => m.mname)) = some "m_glb_principled" ∧
    (materialToPrincipledForGlb
        (materialToPrincipledForGlb sampleGraphC3 [] sampleMatC3).graph
        (materialToPrincipledForGlb sampleGraphC3 [] sampleMatC3).store
        sampleMatC3).newMat =
      (materialToPrincipledForGlb sampleGraphC3 [] sampleMatC3).newMat ∧
    (materialToPrincipledForGlb
        (materialToPrincipledForGlb sampleGraphC3 [] sampleMatC3).graph
        (materialToPrincipledForGlb sampleGraphC3 [] sampleMatC3).store
        sampleMatC3).store =
      (materialToPrincipledForGlb sampleGraphC3 [] sampleMatC3).store := by
  refine ⟨?_, (C3_derived_material_cached sampleGraphC3 [] sampleMatC3).2.1,
    (C3_derived_material_cached sampleGraphC3 [] sampleMatC3).2.2.1⟩
  rcases hm : (materialToPrincipledForGlb sampleGraphC3 [] sampleMatC3).newMat
    with _ | m
  · exact absurd hm (by decide)
  · have h1 := (C3_derived_material_cached sampleGraphC3 [] sampleMatC3).1 m hm
    simp only [Option.map_some', h1]
    decide

/-- A plain (standard-shader) node tree. -/
def plainTreeC4 : GTree := ⟨"Shader Nodetree", [], []⟩

/-- Graph holding only the plain tree. -/
def sampleGraphC4 : Graph := ⟨[(0, plainTreeC4)]⟩

/-- A standard material with back-face culling enabled. -/
def sampleMatC4 : BMaterial :=
  ⟨2, "Body", true, some 0, true, "OPAQUE", (1 : ℚ)/2, "OPAQUE"⟩

/-- A standard material whose name matches the face heuristic. -/
def sampleMatC4b : BMaterial :=
  ⟨3, "face_skin", true, some 0, false, "OPAQUE", (1 : ℚ)/2, "OPAQUE"⟩

/-- C4 counterexample: export preparation does mutate standard materials —
it clears back-face culling on every material it touches and, for the GLB
target, overwrites the blend mode by the name heuristic — so the claimed
no-field-changed preservation fails. -/
theorem C4_counterexample_fields_mutated :
    isVrmMtoonMaterial sampleGraphC4 sampleMatC4 = false ∧
    sampleMatC4.useBackfaceCulling = true ∧
    (prepSlotMaterial "OBJ" sampleGraphC4 [] [] sampleMatC4).slotMat.useBackfaceCulling
      = false ∧
    isVrmMtoonMaterial sampleGraphC4 sampleMatC4b = false ∧
    sampleMatC4b.blendMethod = "OPAQUE" ∧
    (prepSlotMaterial "GLB" sampleGraphC4 [] [] sampleMatC4b).slotMat.blendMethod
      = "CLIP" := by
  decide

/-- Last value written to a name by a write sequence, starting from a
default. -/
def lastVal : List (String × String) → String → String → String
  | [], _, d => d
  | w :: ws, n, d => lastVal ws n (if w.1 = n then w.2 else d)

theorem applyWrites_eq_map : ∀ ws (imgs : List MImg),
    applyWrites ws imgs =
      imgs.map (fun im => ⟨im.iname, lastVal ws im.iname im.colorspace⟩) := by
  intro ws
  induction ws with
  | nil =>
    intro imgs
    simp only [applyWrites, List.foldl_nil, lastVal]
    exact (List.map_id imgs).symm
  | cons w ws ih =>
    intro imgs
    have hstep : applyWrites (w :: ws) imgs = applyWrites ws (applyWrite imgs w) := rfl
    rw [hstep, ih, applyWrite, List.map_map]
    refine List.map_congr_left ?_
    intro im _
    by_cases him : im.iname = w.1
    · simp [Function.comp, him, lastVal]
    · have him' : ¬ (w.1 = im.iname) := fun hh => him hh.symm
      simp [Function.comp, him, him', lastVal]

theorem lastVal_idem : ∀ ws n d, lastVal ws n (lastVal ws n d) = lastVal ws n d := by
  intro ws
  induction ws with
  | nil => intro n d; simp [lastVal]
  | cons w ws ih =>
    intro n d
    by_cases hw : w.1 = n
    · simp only [lastVal, if_pos hw]
    · simp only [lastVal, if_neg hw]
      exact ih n _

theorem applyWrites_idem (ws : List (String × String)) (imgs : List MImg) :
    applyWrites ws (applyWrites ws imgs) = applyWrites ws imgs := by
  rw [applyWrites_eq_map, applyWrites_eq_map, List.map_map]
  refine List.map_congr_left ?_
  intro im _
  simp only [Function.comp, lastVal_idem]

theorem updateColorspacesForMat_idem (g : Graph) (mat : BMaterial)
    (imgs : List MImg) :
    updateColorspacesForMat g mat (updateColorspacesForMat g mat imgs) =
      updateColorspacesForMat g mat imgs := by
  unfold updateColorspacesForMat
  rcases h : mat.tree.bind g.lookup with _ | tree <;> simp [applyWrites_idem]

theorem setCulling_self (m : BMaterial) (h : m.useBackfaceCulling = false) :
    ({ m with useBackfaceCulling := false } : BMaterial) = m := by
  cases m
  simp_all

theorem glbBlend_useNodes (m : BMaterial) : (glbBlend m).useNodes = m.useNodes := by
  unfold glbBlend; split <;> rfl

theorem glbBlend_tree (m : BMaterial) : (glbBlend m).tree = m.tree := by
  unfold glbBlend; split <;> rfl

theorem glbBlend_mid (m : BMaterial) : (glbBlend m).mid = m.mid := by
  unfold glbBlend; split <;> rfl

theorem glbBlend_culling (m : BMaterial) :
    (glbBlend m).useBackfaceCulling = m.useBackfaceCulling := by
  unfold glbBlend; split <;> rfl

theorem isVrmMtoon_glbBlend (g : Graph) (m : BMaterial) :
    isVrmMtoonMaterial g (glbBlend m) = isVrmMtoonMaterial g m := by
  unfold glbBlend; split <;> rfl

theorem updateCS_glbBlend (g : Graph) (m : BMaterial) (imgs : List MImg) :
    updateColorspacesForMat g (glbBlend m) imgs = updateColorspacesForMat g m imgs := by
  unfold glbBlend; split <;> rfl

theorem glbBlend_idem (m : BMaterial) : glbBlend (glbBlend m) = glbBlend m := by
  unfold glbBlend
  by_cases h : (["face", "eyelash", "eye", "hair"].any
      (fun x => strContains (pyLower m.mname) x)) = true
  · simp [h]
  · simp [h]

/-- Second-pass stability of the slot preparation: a material that is
already double-sided, standard-shader, with stable colorspaces and (for
GLB) a fixed-point blend classification is left unchanged. -/
theorem prepSlot_stable (mode : String) (g : Graph) (store : List BMaterial)
    (imgs2 : List MImg) (m : BMaterial)
    (hcul : m.useBackfaceCulling = false) (hun2 : m.useNodes = true)
    (htr2 : ¬ m.tree = none) (hmtoon : isVrmMtoonMaterial g m = false)
    (hcs : updateColorspacesForMat g m imgs2 = imgs2)
    (hblend : mode = "GLB" → glbBlend m = m) :
    prepSlotMaterial mode g store imgs2 m = ⟨m, g, store, imgs2⟩ := by
  have hset : ({ m with useBackfaceCulling := false } : BMaterial) = m :=
    setCulling_self m hcul
  have hisn : m.tree.isNone = false := by
    rcases h2 : m.tree with _ | t
    · exact absurd h2 htr2
    · simp
  by_cases hmode : mode = "GLB"
  · subst hmode
    simp only [prepSlotMaterial]
    rw [hset]
    simp [hun2, hisn, hmtoon, hcs, hblend rfl]
  · simp only [prepSlotMaterial]
    rw [hset]
    simp [hun2, hisn, hmtoon, hcs, if_neg hmode]

/-- C4 amended: for every material that is not special-shader, the Material
Rewriter is never invoked on it (the material data-base and graph are left
unchanged and the slot keeps the same material instance, identified by
`mid`), and export preparation is idempotent: its only mutations are
clearing back-face culling, the deterministic colorspace fixes and, for
GLB, the name-heuristic blend mode, so a second preparation pass over the
already-prepared material changes nothing further. -/
theorem C4_standard_material_prep (mode : String) (g : Graph)
    (store : List BMaterial) (imgs : List MImg) (mat : BMaterial)
    (h : isVrmMtoonMaterial g mat = false) :
    (prepSlotMaterial mode g store imgs mat).store = store ∧
    (prepSlotMaterial mode g store imgs mat).graph = g ∧
    (prepSlotMaterial mode g store imgs mat).slotMat.mid = mat.mid ∧
    prepSlotMaterial mode
        (prepSlotMaterial mode g store imgs mat).graph
        (prepSlotMaterial mode g store imgs mat).store
        (prepSlotMaterial mode g store imgs mat).images
        (prepSlotMaterial mode g store imgs mat).slotMat =
      prepSlotMaterial mode g store imgs mat := by
  have hm1 : isVrmMtoonMaterial g { mat with useBackfaceCulling := false } = false := h
  by_cases hb : (!mat.useNodes || mat.tree.isNone) = true
  · refine ⟨?_, ?_, ?_, ?_⟩ <;> simp [prepSlotMaterial, hb]
  · have hb2 : (!mat.useNodes || mat.tree.isNone) = false := by
      revert hb; cases (!mat.useNodes || mat.tree.isNone) <;> simp
    have hun : mat.useNodes = true := by
      revert hb2; cases mat.useNodes <;> simp
    have htr : ¬ (mat.tree = none) := by
      revert hb2; rcases mat.tree with _ | t <;> simp
    by_cases hmode : mode = "GLB"
    · subst hmode
      have e1 : prepSlotMaterial "GLB" g store imgs mat =
          ⟨glbBlend { mat with useBackfaceCulling := false }, g, store,
            updateColorspacesForMat g { mat with useBackfaceCulling := false } imgs⟩ := by
        simp [prepSlotMaterial, hb2, hm1]
      rw [e1]
      refine ⟨rfl, rfl, by simp [glbBlend_mid], ?_⟩
      exact prepSlot_stable "GLB" g store _ _
        (by rw [glbBlend_culling])
        (by rw [glbBlend_useNodes]; exact hun)
        (by rw [glbBlend_tree]; exact htr)
        (by rw [isVrmMtoon_glbBlend]; exact hm1)
        (by rw [updateCS_glbBlend]; exact updateColorspacesForMat_idem g _ imgs)
        (fun _ => glbBlend_idem _)
    · have e1 : prepSlotMaterial mode g store imgs mat =
          ⟨{ mat with useBackfaceCulling := false }, g, store,
            updateColorspacesForMat g { mat with useBackfaceCulling := false } imgs⟩ := by
        simp [prepSlotMaterial, hb2, hm1, if_neg hmode]
      rw [e1]
      refine ⟨rfl, rfl, rfl, ?_⟩
      exact prepSlot_stable mode g store _ _ rfl hun htr hm1
        (updateColorspacesForMat_idem g _ imgs) (fun hh => absurd hh hmode)

/-- Witness for the amended C4 at a concrete standard material. -/
theorem C4_standard_material_prep_witness :
    (prepSlotMaterial "GLB" sampleGraphC4 [] [] sampleMatC4).store = [] ∧
    (prepSlotMaterial "GLB" sampleGraphC4 [] [] sampleMatC4).graph = sampleGraphC4 ∧
    (prepSlotMaterial "GLB" sampleGraphC4 [] [] sampleMatC4).slotMat.mid =
      sampleMatC4.mid ∧
    prepSlotMaterial "GLB"
        (prepSlotMaterial "GLB" sampleGraphC4 [] [] sampleMatC4).graph
        (prepSlotMaterial "GLB" sampleGraphC4 [] [] sampleMatC4).store
        (prepSlotMaterial "GLB" sampleGraphC4 [] [] sampleMatC4).images
        (prepSlotMaterial "GLB" sampleGraphC4 [] [] sampleMatC4).slotMat =
      prepSlotMaterial "GLB" sampleGraphC4 [] [] sampleMatC4 :=
  C4_standard_material_prep "GLB" sampleGraphC4 [] [] sampleMatC4 (by decide)

